import Mathlib

/-!
Shallow embedding of the demo-data generator
(`src/React/resources/data_generator_scraped.py`) and proofs of the
frozen claims about it.

Conventions used throughout:

* Python randomness (`random.choice`, `random.randint`, `random.uniform`)
  is modelled by a deterministic oracle `g : Nat → Nat`; each call site
  reads the oracle at a distinct address, so properties proved for all
  oracles hold for every possible random outcome.
* Python exceptions are modelled with `Except String`; the string names
  the exception (IndexError, ValueError, ...).
* Python `dict` rows are assoc lists in insertion order; assignment
  updates in place (`dictInsert`).
* Python floats never influence any claim; a float value is represented
  opaquely by the `Val.float` constructor carrying a source string.
* External collaborators (the Cortex LLM call, `session.sql`, JSON
  parsing by `json.loads`) are passed in as explicit parameters
  (`Except`-valued outcomes / functions), exactly at the call sites
  where the Python code invokes them.
-/

namespace DemoGen

/-- Oracle supplying the outcomes of the `random` module. -/
abbrev Rng := Nat → Nat

/-- The apostrophe character (written via its code point). -/
def qc : Char := Char.ofNat 39

/-- A one-character string holding an apostrophe. -/
def qs : String := String.mk [qc]

/-- Opening brace character. -/
def lbc : Char := Char.ofNat 123

/-- Closing brace character. -/
def rbc : Char := Char.ofNat 125

/-- Python runtime values that appear in generated records. -/
inductive Val where
  | int (n : Int)
  | str (s : String)
  | bool (b : Bool)
  | date (daysAgo : Nat)
  | datetime (daysAgo : Nat) (hoursAgo : Nat)
  | float (src : String)
deriving DecidableEq

/-- A Python dict row: association list in insertion order. -/
abbrev Record := List (String × Val)

/-- Python dict assignment `r[k] = v`: update in place, else append. -/
def dictInsert : Record → String → Val → Record
  | [], k, v => [(k, v)]
  | (k₀, v₀) :: rest, k, v =>
      if k₀ = k then (k, v) :: rest else (k₀, v₀) :: dictInsert rest k v

/-- Python dict read `r[k]` (as an option). -/
def dictGet : Record → String → Option Val
  | [], _ => none
  | (k₀, v₀) :: rest, k => if k₀ = k then some v₀ else dictGet rest k

/-- Python `str.upper()` (ASCII). -/
def pyUpper (s : String) : String := String.mk (s.data.map Char.toUpper)

/-- Python `str.isdigit()` for ASCII strings: nonempty and all digits. -/
def pyIsDigit (s : String) : Bool := s.data ≠ [] && s.data.all Char.isDigit

/-- Numeric value of a digit string, as Python `int(x)` computes it. -/
def digitsToNat (s : String) : Nat :=
  s.data.foldl (fun a c => a * 10 + (c.toNat - 48)) 0

/-- Substring containment test over character lists. -/
def infixOfChars : List Char → List Char → Bool
  | _, [] => true
  | [], _ => false
  | l@(_ :: rest), pat => pat.isPrefixOf l || infixOfChars rest pat

/-- Python `needle in hay` for strings. -/
def strContains (hay needle : String) : Bool := infixOfChars hay.data needle.data

/-- Python `random.choice(xs)`: raises IndexError on an empty sequence. -/
def pyChoice (g : Rng) (k : Nat) (xs : List α) : Except String α :=
  match xs with
  | [] => .error "IndexError: cannot choose from an empty sequence"
  | x :: rest => .ok ((x :: rest).get ⟨g k % (rest.length + 1), Nat.mod_lt _ (Nat.succ_pos _)⟩)

/-- Python `random.choice` on a list that is visibly nonempty. -/
def pyChoiceNE (g : Rng) (k : Nat) (x : α) (xs : List α) : α :=
  (x :: xs).get ⟨g k % (xs.length + 1), Nat.lt_succ_of_le (Nat.le_of_lt_succ (Nat.mod_lt _ (Nat.succ_pos _)))⟩

/-- Python `random.randint(a, b)` (inclusive bounds). -/
def pyRandint (g : Rng) (k a b : Nat) : Nat := a + g k % (b - a + 1)

/-- Python `sep.join(xs)`. -/
def pyJoin (sep : String) : List String → String
  | [] => ""
  | [x] => x
  | x :: y :: xs => x ++ sep ++ pyJoin sep (y :: xs)

/-- Decimal digit characters of a positive number, most significant first
(fuel-driven; fuel at least the number itself always suffices). -/
def natDigitsAux : Nat → Nat → List Char
  | 0, _ => []
  | _, 0 => []
  | fuel + 1, n => natDigitsAux fuel (n / 10) ++ [Char.ofNat (48 + n % 10)]

/-- Decimal representation of a natural number (the digit production step of
the embedding of Python's `d` format). -/
def natToDec (n : Nat) : String :=
  if n = 0 then String.mk [Char.ofNat 48] else String.mk (natDigitsAux n n)

/-- Python format `{n:0wd}`: decimal, zero-padded on the left to width w. -/
def zpad (w n : Nat) : String :=
  let s := natToDec n
  String.mk (List.replicate (w - s.length) (Char.ofNat 48)) ++ s

/-- Characters stripped by Python `str.strip()`. -/
def isPySpace (c : Char) : Bool := c = ' ' || c = '\t' || c = '\n' || c = '\r'

/-- Python `str.strip()`. -/
def pyStrip (s : String) : String :=
  String.mk (((s.data.dropWhile isPySpace).reverse.dropWhile isPySpace).reverse)

/-- Python `str.rstrip(c)` for a single character. -/
def rstripChar (c : Char) (s : String) : String :=
  String.mk ((s.data.reverse.dropWhile (· = c)).reverse)

/-- Python `s.endswith(t)`. -/
def pyEndsWith (s t : String) : Bool := t.data.isSuffixOf s.data

/-- Python `s.replace(a, b)` where a and b are single characters. -/
def pyReplaceChar (s : String) (a b : Char) : String :=
  String.mk (s.data.map (fun c => if c = a then b else c))

/-- Split a character list on a one-character separator (Python `split(c)`). -/
def splitOnChar (c : Char) : List Char → List (List Char)
  | [] => [[]]
  | x :: xs =>
      match splitOnChar c xs with
      | [] => [[]]
      | grp :: gs => if x = c then [] :: grp :: gs else (x :: grp) :: gs

/-- Python `s.split('.')`. -/
def pySplitDot (s : String) : List String := (splitOnChar (Char.ofNat 46) s.data).map String.mk

/-- Fuel-driven splitter on a multi-character separator (Python `split(sep)`),
scanning left to right, non-overlapping. Fuel is the input length, which is
always sufficient for a nonempty separator. -/
def splitSeqAux (sep : List Char) : Nat → List Char → List (List Char)
  | _, [] => [[]]
  | 0, l => [l]
  | fuel + 1, l@(x :: xs) =>
      if sep.isPrefixOf l ∧ sep ≠ [] then
        match splitSeqAux sep fuel (l.drop sep.length) with
        | [] => [[]]
        | gs => [] :: gs
      else
        match splitSeqAux sep fuel xs with
        | [] => [[x]]
        | grp :: gs => (x :: grp) :: gs

/-- Python `s.split(sep)` for a nonempty separator string. -/
def pySplitSeq (s sep : String) : List String :=
  (splitSeqAux sep.data s.data.length s.data).map String.mk

/-- Python `s.replace(old, new)` for a nonempty `old`, left to right,
non-overlapping (fuel-driven; fuel is the input length). -/
def replaceSeqAux (old new : List Char) : Nat → List Char → List Char
  | _, [] => []
  | 0, l => l
  | fuel + 1, l@(x :: xs) =>
      if old.isPrefixOf l ∧ old ≠ [] then new ++ replaceSeqAux old new fuel (l.drop old.length)
      else x :: replaceSeqAux old new fuel xs

/-- Python `s.replace(old, new)` for strings. -/
def pyReplaceStr (s old new : String) : String :=
  String.mk (replaceSeqAux old.data new.data s.data.length s.data)

/-- Python `comment.replace(squote, two squotes)` used to escape SQL strings. -/
def escQuotes (s : String) : String :=
  String.mk (s.data.foldr (fun c acc => if c = qc then qc :: qc :: acc else c :: acc) [])

/-- Python `str.lower()` (ASCII). -/
def pyLower (s : String) : String := String.mk (s.data.map Char.toLower)

/-! ## Schema-driven structured data generation
(`generate_data_from_schema`, lines 127-185). -/

/-- One column of an LLM-proposed schema: `{"name": .., "type": ..,
"sample_values": [..]}`; a missing `sample_values` is read as `[]` by
`col.get('sample_values', [])`. -/
structure Column where
  name : String
  type : String
  sample_values : List String
deriving DecidableEq

/-- The parsed schema JSON object: `{"columns": [...]}`. -/
structure SchemaData where
  columns : List Column
deriving DecidableEq

/-- Per-cell value synthesis of `generate_data_from_schema` after the
ENTITY_ID special case: the if/elif chain on `col_type` (lines 146-181).
`k` is the rng address of this cell, `i` the record index. -/
def colValueType (g : Rng) (k i : Nat) (colName ctype : String) (sv : List String) : Except String Val :=
  if ctype = "STRING" ∨ ctype = "VARCHAR" ∨ ctype = "TEXT" then
    if sv ≠ [] then (pyChoice g k sv).map .str
    else .ok (.str ("Sample_" ++ toString (i + 1)))
  else if ctype = "NUMBER" ∨ ctype = "INTEGER" ∨ ctype = "INT" then
    if strContains (pyUpper colName) "ID" ∧ colName ≠ "ENTITY_ID" then
      .ok (.int (i + 1))
    else if sv ≠ [] then
      (pyChoice g k ((sv.filter pyIsDigit).map (fun s => (digitsToNat s : Int)))).map .int
    else .ok (.int (pyRandint g k 1 1000))
  else if ctype = "FLOAT" ∨ ctype = "DECIMAL" ∨ ctype = "DOUBLE" then
    if sv ≠ [] then
      match pyChoice g k sv with
      | .error e => .error e
      | .ok s => if pyIsDigit s ∨ pyFloatLit s then .ok (.float s) else .error "ValueError: could not convert string to float"
    else .ok (.float (toString (g k)))
  else if ctype = "DATE" then .ok (.date (pyRandint g k 1 365))
  else if ctype = "TIMESTAMP" ∨ ctype = "DATETIME" then
    .ok (.datetime (pyRandint g k 1 365) (pyRandint g (k + 1) 0 23))
  else if ctype = "BOOLEAN" then (pyChoice g k [true, false]).map .bool
  else
    if sv ≠ [] then (pyChoice g k sv).map .str
    else .ok (.str ("Value_" ++ toString (i + 1)))
where
  /-- Acceptance test of Python `float(x)` on a string, modelled for plain
  decimal literals: optional sign, digits with at most one decimal point,
  at least one digit. -/
  pyFloatLit (s : String) : Bool :=
    let body := if s.data ≠ [] ∧ (s.data.headD ' ' = '-' ∨ s.data.headD ' ' = '+') then s.data.drop 1 else s.data
    body ≠ [] && body.all (fun c => c.isDigit || c = Char.ofNat 46) &&
      (body.filter (fun c => c = Char.ofNat 46)).length ≤ 1 && body.any Char.isDigit

/-- Per-cell value synthesis including the ENTITY_ID special case
(lines 140-144): when join key values are supplied, any column named
ENTITY_ID reads `join_key_values[i]` (IndexError if out of range). -/
def colValue (g : Rng) (jkv : Option (List Int)) (nc i j : Nat) (col : Column) : Except String Val :=
  let k := 2 * (i * nc + j)
  match jkv with
  | some keys =>
      if col.name = "ENTITY_ID" then
        match keys[i]? with
        | some v => .ok (.int v)
        | none => .error "IndexError: list index out of range"
      else colValueType g k i col.name (pyUpper col.type) col.sample_values
  | none => colValueType g k i col.name (pyUpper col.type) col.sample_values

/-- The inner `for col in schema_data['columns']` loop building one record. -/
def genRecord (g : Rng) (jkv : Option (List Int)) (nc i : Nat) :
    List Column → Nat → Record → Except String Record
  | [], _, acc => .ok acc
  | c :: rest, j, acc =>
      match colValue g jkv nc i j c with
      | .error e => .error e
      | .ok v => genRecord g jkv nc i rest (j + 1) (dictInsert acc c.name v)

/-- The outer `for i in range(num_records)` loop. -/
def genRows (g : Rng) (jkv : Option (List Int)) (nc : Nat) (cols : List Column) :
    Nat → Nat → Except String (List Record)
  | _, 0 => .ok []
  | i, m + 1 =>
      match genRecord g jkv nc i cols 0 [] with
      | .error e => .error e
      | .ok r =>
          match genRows g jkv nc cols (i + 1) m with
          | .error e => .error e
          | .ok rest => .ok (r :: rest)

/-- `generate_data_from_schema(schema_data, num_records, ..., join_key_values)`
(lines 127-185). `table_info` and `company_name` are unused by the body and
omitted. -/
def generate_data_from_schema (g : Rng) (schema : SchemaData) (num_records : Nat)
    (jkv : Option (List Int)) : Except String (List Record) :=
  genRows g jkv schema.columns.length schema.columns 0 num_records

/-! ## Fallback structured data (`create_sample_data`, lines 1010-1053). -/

/-- The `base_columns` list of `create_sample_data` (lines 1014-1027):
a leading ENTITY_ID exactly when join key values are provided. -/
def sampleBaseColumns (jkv : Option (List Int)) : List (String × String) :=
  (match jkv with | some _ => [("ENTITY_ID", "NUMBER")] | none => []) ++
    [("ID", "NUMBER"), ("NAME", "STRING"), ("CATEGORY", "STRING"), ("VALUE", "FLOAT"),
     ("STATUS", "STRING"), ("CREATED_DATE", "DATE"), ("MODIFIED_TIMESTAMP", "TIMESTAMP")]

/-- The per-column if/elif chain of `create_sample_data` (lines 1032-1049).
A name matching no branch assigns nothing (`none`); this is unreachable for
the fixed base columns. -/
def sampleColVal (g : Rng) (company : String) (jkv : Option (List Int)) (i j : Nat)
    (colName : String) : Except String (Option Val) :=
  let k := 8 * i + j
  if colName = "ENTITY_ID" ∧ jkv.isSome then
    match jkv.getD [] |>.get? i with
    | some v => .ok (some (.int v))
    | none => .error "IndexError: list index out of range"
  else if colName = "ID" then .ok (some (.int (i + 1)))
  else if colName = "NAME" then
    .ok (some (.str (pyReplaceChar company '-' '_' ++ "_Item_" ++ toString (i + 1))))
  else if colName = "CATEGORY" then
    .ok (some (.str (pyChoiceNE g k "A" ["B", "C", "Premium"])))
  else if colName = "VALUE" then .ok (some (.float (toString (g k))))
  else if colName = "STATUS" then
    .ok (some (.str (pyChoiceNE g k "Active" ["Inactive", "Pending"])))
  else if colName = "CREATED_DATE" then .ok (some (.date (pyRandint g k 1 365)))
  else if colName = "MODIFIED_TIMESTAMP" then .ok (some (.datetime (pyRandint g k 0 30) 0))
  else .ok none

/-- The `for col_name, col_type in base_columns` loop building one record. -/
def sampleRecord (g : Rng) (company : String) (jkv : Option (List Int)) (i : Nat) :
    List (String × String) → Nat → Record → Except String Record
  | [], _, acc => .ok acc
  | (cn, _) :: rest, j, acc =>
      match sampleColVal g company jkv i j cn with
      | .error e => .error e
      | .ok none => sampleRecord g company jkv i rest (j + 1) acc
      | .ok (some v) => sampleRecord g company jkv i rest (j + 1) (dictInsert acc cn v)

/-- The outer record loop of `create_sample_data`. -/
def sampleRows (g : Rng) (company : String) (jkv : Option (List Int))
    (cols : List (String × String)) : Nat → Nat → Except String (List Record)
  | _, 0 => .ok []
  | i, m + 1 =>
      match sampleRecord g company jkv i cols 0 [] with
      | .error e => .error e
      | .ok r =>
          match sampleRows g company jkv cols (i + 1) m with
          | .error e => .error e
          | .ok rest => .ok (r :: rest)

/-- `create_sample_data(table_type, table_name, num_records, company_name,
join_key_values)` (lines 1010-1053). `table_type` and `table_name` are unused
by the body and omitted. -/
def create_sample_data (g : Rng) (num_records : Nat) (company : String)
    (jkv : Option (List Int)) : Except String (List Record) :=
  sampleRows g company jkv (sampleBaseColumns jkv) 0 num_records

/-- `generate_fallback_data` (lines 988-991) forwards to `create_sample_data`. -/
def generate_fallback_data (g : Rng) (num_records : Nat) (company : String)
    (jkv : Option (List Int)) : Except String (List Record) :=
  create_sample_data g num_records company jkv

/-! ## Freeform LLM response to JSON extraction
(`re.search` over the response, lines 60-69). -/

/-- Index of the first occurrence of a character. -/
def firstIdxOf (c : Char) (cs : List Char) : Option Nat := cs.findIdx? (· = c)

/-- Index of the last occurrence of a character. -/
def lastIdxOf (c : Char) (cs : List Char) : Option Nat :=
  match (cs.reverse).findIdx? (· = c) with
  | none => none
  | some k => some (cs.length - 1 - k)

/-- The substring of `s` from index `i` to index `j` inclusive. -/
def sliceIncl (s : String) (i j : Nat) : String :=
  String.mk ((s.data.drop i).take (j - i + 1))

/-- Semantics of `re.search(braces-pattern, response, re.DOTALL)` followed by
`match.group(0)` (lines 62-63): with a greedy dot-all body, the match (when one
exists) runs from the first opening brace to the last closing brace of the
whole response; no match exists when no closing brace follows an opening one. -/
def extractBraces (s : String) : Option String :=
  match firstIdxOf lbc s.data, lastIdxOf rbc s.data with
  | some i, some j => if i < j then some (sliceIncl s i j) else none
  | _, _ => none

/-- `generate_realistic_content_with_llm` (lines 3-73). The Cortex call
outcome is the parameter `llm`; `json.loads` composed with reading the
parsed object into the expected shape is the parameter `jsonLoads`.
The outer `except Exception` catches every failure (including the
AttributeError raised by `match.group(0)` when `re.search` returns None,
and anything raised inside `generate_data_from_schema`); the inner
`except json.JSONDecodeError` catches exactly JSON parse failures; both
handlers return `generate_fallback_data`. -/
def generate_realistic_content_with_llm (g : Rng) (llm : Except String String)
    (jsonLoads : String → Except String SchemaData) (num_records : Nat)
    (company : String) (jkv : Option (List Int)) : Except String (List Record) :=
  match llm with
  | .error _ => generate_fallback_data g num_records company jkv
  | .ok resp =>
    match extractBraces resp with
    | none => generate_fallback_data g num_records company jkv
    | some js =>
      match jsonLoads js with
      | .error _ => generate_fallback_data g num_records company jkv
      | .ok schema =>
        match generate_data_from_schema g schema num_records jkv with
        | .error _ => generate_fallback_data g num_records company jkv
        | .ok d => .ok d

/-! ## Semantic view elements and SQL assembly
(`generate_semantic_elements`, lines 385-505;
`generate_semantic_elements_with_schema`, lines 571-718;
`generate_fallback_semantic_elements`, lines 507-569). -/

/-- One fact or dimension entry of the parsed LLM elements JSON. -/
structure Fact where
  table_column : String
  name : String
  synonyms : List String
  comment : String
deriving DecidableEq

/-- The parsed elements JSON object (the `sample_queries` key is consumed only
by the CA extension, which no claim mentions, and is omitted). -/
structure ElementsData where
  facts : List Fact
  dimensions : List Fact
deriving DecidableEq

/-- Column reference resolution of `generate_semantic_elements`
(lines 455-461): a 2-part `TABLE.COLUMN` is reassembled as is, anything
else is passed through unchanged. -/
def factRef (tc : String) : String :=
  match pySplitDot tc with
  | [t, c] => t ++ "." ++ c
  | _ => tc

/-- Column reference resolution of `generate_semantic_elements_with_schema`
(lines 663-669): a non-2-part reference is prefixed with the first table. -/
def factRefWS (table1 : String) (tc : String) : String :=
  match pySplitDot tc with
  | [t, c] => t ++ "." ++ c
  | _ => table1 ++ "." ++ tc

/-- The rendered synonyms list: `squote ++ squote-comma-squote joined ++ squote`. -/
def synonymsStr (syns : List String) : String := pyJoin (qs ++ "," ++ qs) syns

/-- One rendered fact/dimension line of `generate_semantic_elements`
(line 466): four leading spaces, reference, name, synonyms, escaped comment. -/
def factLine (f : Fact) : String :=
  "    " ++ factRef f.table_column ++ " as " ++ f.name ++ " with synonyms=(" ++ qs ++
    synonymsStr f.synonyms ++ qs ++ ") comment=" ++ qs ++ escQuotes f.comment ++ qs

/-- Synonym cleaning of the with-schema variant (lines 672, 695): spaces and
hyphens become underscores. -/
def cleanSyn (s : String) : String := pyReplaceChar (pyReplaceChar s ' ' '_') '-' '_'

/-- One rendered fact/dimension line of `generate_semantic_elements_with_schema`
(line 676). -/
def factLineWS (table1 : String) (f : Fact) : String :=
  "    " ++ factRefWS table1 f.table_column ++ " as " ++ f.name ++ " with synonyms=(" ++ qs ++
    synonymsStr (f.synonyms.map cleanSyn) ++ qs ++ ") comment=" ++ qs ++ escQuotes f.comment ++ qs

/-- The accumulation loop of `generate_semantic_elements` (lines 452-469):
each line is followed by a comma exactly when the entry is not VALUE-equal to
the final entry of the list (`fact != elements_data['facts'][-1]`), then by a
newline. `lastF` is that final entry. -/
def assembleByValueCore (lastF : Fact) : List Fact → String
  | [] => ""
  | f :: rest =>
      factLine f ++ (if f ≠ lastF then "," else "") ++ "\n" ++ assembleByValueCore lastF rest

/-- `facts_sql` (resp. `dimensions_sql`) of `generate_semantic_elements`:
the loop above followed by `rstrip` of trailing newlines (line 492). An empty
list yields the empty string (the loop body never runs and the final-entry
read inside it is never evaluated). -/
def assembleByValue (facts : List Fact) : String :=
  match facts.getLast? with
  | none => ""
  | some lastF => rstripChar '\n' (assembleByValueCore lastF facts)

/-- The accumulation loop of `generate_semantic_elements_with_schema`
(lines 662-679): a comma follows every entry whose index `i` satisfies
`i < len(facts_list) - 1`, that is, every entry with a nonempty tail. -/
def assembleIndexedCore (table1 : String) : List Fact → String
  | [] => ""
  | [f] => factLineWS table1 f ++ "\n"
  | f :: rest => factLineWS table1 f ++ ",\n" ++ assembleIndexedCore table1 rest

/-- `facts_sql` (resp. `dimensions_sql`) of
`generate_semantic_elements_with_schema`: the indexed loop followed by
`rstrip` of trailing newlines (line 705). -/
def assembleIndexed (table1 : String) (facts : List Fact) : String :=
  rstripChar '\n' (assembleIndexedCore table1 facts)

/-- The `entity_ids_added` set (lines 644-650): table parts of 2-part
references whose column part is ENTITY_ID. -/
def entityIdsAdded (facts : List Fact) : List String :=
  facts.filterMap (fun f =>
    match pySplitDot f.table_column with
    | [t, c] => if c = "ENTITY_ID" then some t else none
    | _ => none)

/-- The default ENTITY_ID fact appended for a table (lines 655-660). -/
def defaultEntityFact (t : String) : Fact :=
  { table_column := t ++ ".ENTITY_ID"
    name := "ENTITY_ID"
    synonyms := ["id", "entity_key", "record_id", "unique_identifier", "identifier"]
    comment := "Unique identifier for joining tables from " ++ t }

/-- The augmentation loop (lines 652-660): for each of the two tables, in
order, append a default ENTITY_ID fact when the table is not in
`entity_ids_added` (the set computed from the original list). -/
def augmentFacts (table1 table2 : String) (facts : List Fact) : List Fact :=
  let added := entityIdsAdded facts
  facts ++ (if table1 ∈ added then [] else [defaultEntityFact table1]) ++
    (if table2 ∈ added then [] else [defaultEntityFact table2])

/-- Column name/type rows returned by `get_table_schema`. -/
structure ColInfo where
  name : String
  type : String
deriving DecidableEq

/-- The ENTITY_ID fact line of `generate_fallback_semantic_elements`
(lines 515-516). -/
def fallbackEntityFactLine (t : String) : String :=
  "    " ++ t ++ ".ENTITY_ID as ENTITY_ID with synonyms=(" ++ qs ++ "id" ++ qs ++ "," ++ qs ++
    "entity_key" ++ qs ++ "," ++ qs ++ "record_id" ++ qs ++ "," ++ qs ++ "unique_identifier" ++
    qs ++ "," ++ qs ++ "identifier" ++ qs ++ ") comment=" ++ qs ++
    "Unique identifier for joining tables from " ++ t ++ qs

/-- A numeric-column fact line of `generate_fallback_semantic_elements`
(line 523). -/
def fallbackNumFactLine (t : String) (c : ColInfo) : String :=
  "    " ++ t ++ "." ++ c.name ++ " as " ++ c.name ++ " with synonyms=(" ++ qs ++ "value" ++ qs ++
    "," ++ qs ++ "amount" ++ qs ++ "," ++ qs ++ "quantity" ++ qs ++ "," ++ qs ++ "measure" ++ qs ++
    "," ++ qs ++ "metric" ++ qs ++ ") comment=" ++ qs ++ "Numeric value from " ++ t ++ qs

/-- A date/time dimension line of `generate_fallback_semantic_elements`
(line 537). -/
def fallbackDateDimLine (t : String) (c : ColInfo) : String :=
  "    " ++ t ++ "." ++ c.name ++ " as " ++ c.name ++ " with synonyms=(" ++ qs ++ "date" ++ qs ++
    "," ++ qs ++ "time" ++ qs ++ "," ++ qs ++ "timestamp" ++ qs ++ "," ++ qs ++ "when" ++ qs ++
    "," ++ qs ++ "period" ++ qs ++ ") comment=" ++ qs ++ "Date/time dimension from " ++ t ++ qs

/-- A text dimension line of `generate_fallback_semantic_elements` (line 539). -/
def fallbackTextDimLine (t : String) (c : ColInfo) : String :=
  "    " ++ t ++ "." ++ c.name ++ " as " ++ c.name ++ " with synonyms=(" ++ qs ++ "name" ++ qs ++
    "," ++ qs ++ "title" ++ qs ++ "," ++ qs ++ "label" ++ qs ++ "," ++ qs ++ "description" ++ qs ++
    "," ++ qs ++ "category" ++ qs ++ ") comment=" ++ qs ++ "Text dimension from " ++ t ++ qs

/-- Numeric SQL types recognised by the fallback fact scan (line 522). -/
def isNumType (ty : String) : Bool :=
  ty = "NUMBER" || ty = "FLOAT" || ty = "INTEGER" || ty = "DECIMAL" || ty = "DOUBLE"

/-- Dimension SQL types recognised by the fallback dimension scan (line 535). -/
def isDimType (ty : String) : Bool :=
  ty = "VARCHAR" || ty = "TEXT" || ty = "STRING" || ty = "DATE" || ty = "TIMESTAMP" || ty = "BOOLEAN"

/-- The inner dimension scan of `generate_fallback_semantic_elements`
(lines 534-541): append a line per qualifying column, stopping right after
the accumulated list reaches three entries. -/
def fallbackDimsInner (t : String) (acc : List String) : List ColInfo → List String
  | [] => acc
  | c :: cs =>
      if isDimType c.type ∧ c.name ≠ "ENTITY_ID" then
        let acc₂ := acc ++ [if strContains c.type "DATE" ∨ strContains c.type "TIME" then
            fallbackDateDimLine t c else fallbackTextDimLine t c]
        if 3 ≤ acc₂.length then acc₂ else fallbackDimsInner t acc₂ cs
      else fallbackDimsInner t acc cs

/-- The outer dimension scan over the two tables (lines 532-543), with the
empty-schema guard and the early exit once three dimensions are collected. -/
def fallbackDimsOuter (acc : List String) : List (String × List ColInfo) → List String
  | [] => acc
  | (t, sch) :: rest =>
      let acc₂ := if sch = [] then acc else fallbackDimsInner t acc sch
      if 3 ≤ acc₂.length then acc₂ else fallbackDimsOuter acc₂ rest

/-- `generate_fallback_semantic_elements(table1_name, table1_schema,
table2_name, table2_schema)` (lines 507-569), returning the pair
`(facts_sql, dimensions_sql)`. The CA extension (a JSON blob no claim
mentions) is omitted from the return value. -/
def fallbackNumExtras (t1 : String) (sch1 : List ColInfo) (t2 : String)
    (sch2 : List ColInfo) : List String :=
  [(t1, sch1), (t2, sch2)].filterMap (fun p =>
    if p.2 = [] then none
    else (p.2.find? (fun c => isNumType c.type && c.name ≠ "ENTITY_ID")).map
      (fun c => fallbackNumFactLine p.1 c))

def generate_fallback_semantic_elements (t1 : String) (sch1 : List ColInfo)
    (t2 : String) (sch2 : List ColInfo) : String × String :=
  let factsList := [fallbackEntityFactLine t1, fallbackEntityFactLine t2] ++
    fallbackNumExtras t1 sch1 t2 sch2
  let factsSql := pyJoin ",\n" factsList
  let dimsList := fallbackDimsOuter [] [(t1, sch1), (t2, sch2)]
  let dimsList := if dimsList = [] then
      ["    " ++ t1 ++ ".ENTITY_ID as ENTITY_ID with synonyms=(" ++ qs ++ "key" ++ qs ++ "," ++
        qs ++ "identifier" ++ qs ++ "," ++ qs ++ "id" ++ qs ++ "," ++ qs ++ "reference" ++ qs ++
        "," ++ qs ++ "index" ++ qs ++ ") comment=" ++ qs ++ "Entity key dimension" ++ qs]
    else dimsList
  (factsSql, pyJoin ",\n" dimsList)

/-- `generate_semantic_elements_with_schema` (lines 571-718), returning
`(facts_sql, dimensions_sql)`. The Cortex call outcome is `llm`; JSON
parsing into the expected shape is `jsonLoads`. A missing regex match takes
the explicit else-branch (line 713); a `json.loads` failure or any other
exception is caught at line 716; both produce the with-schema fallback,
which for the purposes of the claims below is
`generate_fallback_semantic_elements_with_schema` (embedded separately only
where a claim needs it; here the fallback pair is abstracted as `fb`). -/
def generate_semantic_elements_with_schema (llm : Except String String)
    (jsonLoads : String → Except String ElementsData) (t1 t2 : String)
    (fb : String × String) : String × String :=
  match llm with
  | .error _ => fb
  | .ok resp =>
    match extractBraces resp with
    | none => fb
    | some js =>
      match jsonLoads js with
      | .error _ => fb
      | .ok ed =>
        (assembleIndexed t1 (augmentFacts t1 t2 ed.facts), assembleIndexed t1 ed.dimensions)

/-! ## Semantic view and search service creation
(`create_semantic_view`, lines 220-321;
`create_cortex_search_service`, lines 187-218). -/

/-- Result dictionary of a successful `create_semantic_view` (lines 308-312). -/
structure SemanticViewResult where
  view_name : String
  example_queries : List String
  join_key : String
deriving DecidableEq

/-- The cleaned view name (lines 224-225). -/
def semanticViewName (company : String) : String :=
  pyUpper (pyReplaceChar (pyReplaceChar company '-' '_') ' ' '_') ++ "_SEMANTIC_VIEW"

/-- The CREATE SEMANTIC VIEW statement text (lines 280-295), assembled from
the schema name, table names, facts and dimensions blocks, and description. -/
def semanticViewSql (schemaName viewName t1 t2 factsSql dimsSql desc : String) : String :=
  "CREATE OR REPLACE SEMANTIC VIEW " ++ schemaName ++ "." ++ viewName ++
  "\n        TABLES (\n        " ++ schemaName ++ "." ++ t1 ++ " PRIMARY KEY (ENTITY_ID),\n        " ++
  schemaName ++ "." ++ t2 ++ " PRIMARY KEY (ENTITY_ID)\n        )\n        RELATIONSHIPS (\n            ENTITY_LINK AS " ++
  t1 ++ "(ENTITY_ID) REFERENCES " ++ t2 ++ "(ENTITY_ID)\n        )\n        FACTS (\n        " ++
  factsSql ++ "\n        )\n        DIMENSIONS (\n        " ++ dimsSql ++
  "\n        )\n        COMMENT = " ++ qs ++ escQuotes desc ++ qs

/-- `create_semantic_view` (lines 220-321). The two `get_table_schema`
results are inputs `sch1`, `sch2` (an empty list is the failure value that
function returns on any error); the semantic elements pair and the example
queries are the results of the embedded helper calls, passed in already
evaluated (both helpers catch all of their own exceptions); `exec` is the
outcome of `session.sql(create_view_sql).collect()` on the statement it is
given. Every failure path returns `none`: the empty-schema guard at
line 264-269, and the outer `except Exception` at line 314 which catches
the execution failure. -/
def create_semantic_view (exec : String → Except String Unit) (schemaName : String)
    (t1 t2 : String) (sch1 sch2 : List ColInfo) (elems : String × String)
    (queries : List String) (title : String) (company : String) : Option SemanticViewResult :=
  let viewName := semanticViewName company
  if sch1 = [] ∨ sch2 = [] then none
  else
    let desc := "Semantic view for " ++ title ++ " combining " ++ t1 ++ " and " ++ t2 ++ " data"
    let sql := semanticViewSql schemaName viewName t1 t2 elems.1 elems.2 desc
    match exec sql with
    | .ok _ => some { view_name := viewName, example_queries := queries, join_key := "ENTITY_ID" }
    | .error _ => none

/-- The CREATE CORTEX SEARCH SERVICE statement text (lines 194-209). -/
def searchServiceSql (schemaName serviceName tableName searchColumn : String) : String :=
  "\n        CREATE OR REPLACE CORTEX SEARCH SERVICE " ++ schemaName ++ "." ++ serviceName ++
  "\n        ON " ++ searchColumn ++
  "\n        ATTRIBUTES CHUNK_ID, DOCUMENT_ID, DOCUMENT_TYPE, SOURCE_SYSTEM" ++
  "\n        WAREHOUSE = compute_wh\n        TARGET_LAG = " ++ qs ++ "1 minute" ++ qs ++
  "\n        AS (\n            SELECT \n                CHUNK_ID,\n                DOCUMENT_ID, \n                DOCUMENT_TYPE,\n                SOURCE_SYSTEM,\n                " ++
  searchColumn ++ "\n            FROM " ++ schemaName ++ "." ++ tableName ++ "\n        );\n        "

/-- `create_cortex_search_service(schema_name, table_name, search_column)`
(lines 187-218): returns the service name on success and `None` when the
execution of the statement raises. -/
def create_cortex_search_service (exec : String → Except String Unit)
    (schemaName tableName searchColumn : String) : Option String :=
  let serviceName := tableName ++ "_SEARCH_SERVICE"
  match exec (searchServiceSql schemaName serviceName tableName searchColumn) with
  | .ok _ => some serviceName
  | .error _ => none

/-! ## Chunked unstructured data
(`generate_chunked_data_from_samples`, lines 946-986). -/

/-- The groups visited by `for j in range(0, len(sentences), chunk_size)`
with slices `sentences[j:j+chunk_size]`, for a chunk size of at least one.
Fuel-driven (fuel is the list length; a zero chunk size, impossible here
since it comes from `randint(1, 2)`, would make Python `range` raise). -/
def chunkGroupsAux (cs : Nat) : Nat → List String → List (List String)
  | _, [] => []
  | 0, l => [l]
  | fuel + 1, l => l.take cs :: chunkGroupsAux cs fuel (l.drop cs)

/-- Successive `chunk_size`-sized slices of the sentence list. -/
def chunkGroups (cs : Nat) (l : List String) : List (List String) :=
  chunkGroupsAux cs l.length l

/-- The METADATA JSON string (lines 977-982); the confidence score is an
oracle-driven float rendered from the oracle value. -/
def chunkMetadata (g : Rng) (k : Nat) (tableName : String) : String :=
  String.mk [lbc] ++ "\"source_table\": \"" ++ tableName ++
    "\", \"chunk_method\": \"sentence_boundary\", \"language\": \"en\", \"confidence_score\": " ++
    toString (g k) ++ String.mk [rbc]

/-- The chunk text of one group after the period fix-up (lines 962-964):
join the slice with a period and space and append a period when the text is
nonempty and does not already end with one. -/
def chunkFixedText (grp : List String) : String :=
  let chunkText := pyJoin ". " grp
  if chunkText ≠ "" ∧ ¬ pyEndsWith chunkText "." then chunkText ++ "." else chunkText

/-- The body of the inner chunk loop for one group (lines 961-984): emit a
record exactly when the stripped chunk text is nonempty. `p` is the
zero-based group index (so `CHUNK_POSITION` is `p + 1`), `cid` the running
chunk counter, `i` the outer record index. -/
def chunkRecordOf (g : Rng) (tableName company : String) (i p cid : Nat)
    (grp : List String) : Option Record :=
  let chunkText := chunkFixedText grp
  if pyStrip chunkText = "" then none
  else
    let k := 1000003 * i + 7 * p
    some [("CHUNK_ID", .str ("CHUNK_" ++ zpad 8 cid)),
          ("DOCUMENT_ID", .str ("DOC_" ++ zpad 6 (i + 1))),
          ("CHUNK_TEXT", .str (pyStrip chunkText)),
          ("CHUNK_POSITION", .int (p + 1)),
          ("CHUNK_LENGTH", .int chunkText.length),
          ("DOCUMENT_TYPE", .str (pyLower (pyReplaceStr tableName "_CHUNKS" ""))),
          ("SOURCE_SYSTEM", .str (pyUpper (pyReplaceChar company '-' '_'))),
          ("CREATED_DATE", .date (pyRandint g (k + 1) 1 365)),
          ("LAST_MODIFIED", .datetime (pyRandint g (k + 2) 0 30) 0),
          ("METADATA", .str (chunkMetadata g (k + 3) tableName))]

/-- The inner `for j in range(...)` loop over the groups of one sample,
threading the chunk counter. -/
def chunkLoop (g : Rng) (tableName company : String) (i : Nat) :
    List (List String) → Nat → Nat → List Record × Nat
  | [], _, cid => ([], cid)
  | grp :: rest, p, cid =>
      match chunkRecordOf g tableName company i p cid grp with
      | none => chunkLoop g tableName company i rest (p + 1) cid
      | some r =>
          let (rs, cid₂) := chunkLoop g tableName company i rest (p + 1) (cid + 1)
          (r :: rs, cid₂)

/-- The outer `for i in range(num_records)` loop: pick a random sample,
split it on period-space, pick a chunk size of one or two, and run the
inner loop. -/
def chunkRows (g : Rng) (samples : List String) (tableName company : String) :
    Nat → Nat → Nat → Except String (List Record × Nat)
  | _, cid, 0 => .ok ([], cid)
  | i, cid, m + 1 =>
      match pyChoice g (1000003 * i) samples with
      | .error e => .error e
      | .ok fullText =>
          let sentences := pySplitSeq fullText ". "
          let cs := pyRandint g (1000003 * i + 1) 1 2
          let (rs, cid₂) := chunkLoop g tableName company i (chunkGroups cs sentences) 0 cid
          match chunkRows g samples tableName company (i + 1) cid₂ m with
          | .error e => .error e
          | .ok (rest, cid₃) => .ok (rs ++ rest, cid₃)

/-- `generate_chunked_data_from_samples(text_samples, num_records, table_info,
company_name)` (lines 946-986). The chunk counter starts at one. -/
def generate_chunked_data_from_samples (g : Rng) (samples : List String)
    (num_records : Nat) (tableName company : String) : Except String (List Record) :=
  match chunkRows g samples tableName company 0 1 num_records with
  | .error e => .error e
  | .ok (rs, _) => .ok rs

/-! ## ENTITY_ID pools of `create_tables_in_snowflake` (lines 1128-1144). -/

/-- `table1_entity_ids = base_entity_ids[:num_records]` (line 1134), where
`base_entity_ids` is a shuffle of `list(range(1, num_records * 2 + 1))`. -/
def table1Ids (base : List Int) (n : Nat) : List Int := base.take n

/-- The second pool before its shuffle (line 1138):
`table1_entity_ids[:overlap_size] + base_entity_ids[num_records : num_records + (num_records - overlap_size)]`. -/
def table2IdsPre (base : List Int) (n overlap : Nat) : List Int :=
  (table1Ids base n).take overlap ++ (base.drop n).take (n - overlap)

/-- The pool `list(range(1, num_records * 2 + 1))` before shuffling. -/
def basePool (n : Nat) : List Int := (List.range (2 * n)).map (fun k => ((k + 1 : Nat) : Int))

/-! ## Lemmas about dict rows. -/

theorem dictGet_dictInsert_same (r : Record) (k : String) (v : Val) :
    dictGet (dictInsert r k v) k = some v := by
  induction r with
  | nil => simp [dictInsert, dictGet]
  | cons p rest ih =>
      obtain ⟨k₀, v₀⟩ := p
      by_cases h : k₀ = k <;> simp [dictInsert, dictGet, h, ih]

theorem dictGet_dictInsert_other (r : Record) (k k₁ : String) (v : Val) (h : k₁ ≠ k) :
    dictGet (dictInsert r k₁ v) k = dictGet r k := by
  induction r with
  | nil => simp [dictInsert, dictGet, h]
  | cons p rest ih =>
      obtain ⟨k₀, v₀⟩ := p
      simp only [dictInsert]
      by_cases h₀ : k₀ = k₁
      · subst h₀; simp [dictGet, h]
      · simp only [h₀, if_false]
        by_cases h₁ : k₀ = k
        · simp [dictGet, h₁]
        · simp [dictGet, h₁, ih]

theorem dictGet_dictInsert_isSome (r : Record) (k k₁ : String) (v : Val)
    (h : (dictGet r k).isSome) : (dictGet (dictInsert r k₁ v) k).isSome := by
  by_cases hk : k₁ = k
  · subst hk; simp [dictGet_dictInsert_same]
  · rwa [dictGet_dictInsert_other _ _ _ _ hk]

/-! ## Lemmas about `genRecord` and `genRows`. -/

theorem genRecord_get_of_not_mem (g : Rng) (jkv : Option (List Int)) (nc i : Nat)
    (name : String) :
    ∀ (cols : List Column) (j : Nat) (acc rec : Record),
      genRecord g jkv nc i cols j acc = .ok rec →
      (∀ c ∈ cols, c.name ≠ name) → dictGet rec name = dictGet acc name := by
  intro cols
  induction cols with
  | nil => intro j acc rec h _; cases h; rfl
  | cons c rest ih =>
      intro j acc rec h hnm
      unfold genRecord at h
      cases hcv : colValue g jkv nc i j c with
      | error e => rw [hcv] at h; cases h
      | ok v =>
          rw [hcv] at h
          have := ih (j + 1) (dictInsert acc c.name v) rec h (fun c' hc' => hnm c' (List.mem_cons_of_mem _ hc'))
          rw [this, dictGet_dictInsert_other _ _ _ _ (hnm c (List.mem_cons_self _ _))]

theorem genRecord_isSome_mono (g : Rng) (jkv : Option (List Int)) (nc i : Nat)
    (name : String) :
    ∀ (cols : List Column) (j : Nat) (acc rec : Record),
      genRecord g jkv nc i cols j acc = .ok rec →
      (dictGet acc name).isSome → (dictGet rec name).isSome := by
  intro cols
  induction cols with
  | nil => intro j acc rec h hs; cases h; exact hs
  | cons c rest ih =>
      intro j acc rec h hs
      unfold genRecord at h
      cases hcv : colValue g jkv nc i j c with
      | error e => rw [hcv] at h; cases h
      | ok v =>
          rw [hcv] at h
          exact ih (j + 1) _ rec h (dictGet_dictInsert_isSome _ _ _ _ hs)

theorem genRecord_isSome_of_mem (g : Rng) (jkv : Option (List Int)) (nc i : Nat)
    (name : String) :
    ∀ (cols : List Column) (j : Nat) (acc rec : Record),
      genRecord g jkv nc i cols j acc = .ok rec →
      name ∈ cols.map Column.name → (dictGet rec name).isSome := by
  intro cols
  induction cols with
  | nil => intro j acc rec _ hm; simp at hm
  | cons c rest ih =>
      intro j acc rec h hm
      unfold genRecord at h
      cases hcv : colValue g jkv nc i j c with
      | error e => rw [hcv] at h; cases h
      | ok v =>
          rw [hcv] at h
          rcases List.mem_cons.mp hm with hm | hm
          · exact genRecord_isSome_mono g jkv nc i name rest (j + 1) _ rec h
              (by rw [hm, dictGet_dictInsert_same]; rfl)
          · exact ih (j + 1) _ rec h hm

theorem genRecord_last_occurrence (g : Rng) (jkv : Option (List Int)) (nc i : Nat) :
    ∀ (cols : List Column) (j : Nat) (acc rec : Record),
      genRecord g jkv nc i cols j acc = .ok rec →
      ∀ (jd : Nat) (hjd : jd < cols.length),
        (∀ (jd' : Nat) (hjd' : jd' < cols.length), jd < jd' →
          (cols.get ⟨jd', hjd'⟩).name ≠ (cols.get ⟨jd, hjd⟩).name) →
        ∃ v, colValue g jkv nc i (j + jd) (cols.get ⟨jd, hjd⟩) = .ok v ∧
          dictGet rec (cols.get ⟨jd, hjd⟩).name = some v := by
  intro cols
  induction cols with
  | nil => intro j acc rec _ jd hjd; simp at hjd
  | cons c rest ih =>
      intro j acc rec h jd hjd hlast
      unfold genRecord at h
      cases hcv : colValue g jkv nc i j c with
      | error e => rw [hcv] at h; cases h
      | ok v =>
          rw [hcv] at h
          cases jd with
          | zero =>
              refine ⟨v, by simpa using hcv, ?_⟩
              have hnm : ∀ c' ∈ rest, c'.name ≠ c.name := by
                intro c' hc'
                obtain ⟨⟨t, ht⟩, hget⟩ := List.mem_iff_get.mp hc'
                have := hlast (t + 1) (by simpa using Nat.succ_lt_succ ht) (Nat.succ_pos t)
                rw [← hget]
                simpa using this
              have := genRecord_get_of_not_mem g jkv nc i c.name rest (j + 1) _ rec h hnm
              simpa [this] using dictGet_dictInsert_same acc c.name v
          | succ jd₀ =>
              have hjd₀ : jd₀ < rest.length := Nat.lt_of_succ_lt_succ hjd
              have hlast₀ : ∀ (jd' : Nat) (hjd' : jd' < rest.length), jd₀ < jd' →
                  (rest.get ⟨jd', hjd'⟩).name ≠ (rest.get ⟨jd₀, hjd₀⟩).name := by
                intro jd' hjd' hgt
                have := hlast (jd' + 1) (by simpa using Nat.succ_lt_succ hjd')
                  (Nat.succ_lt_succ hgt)
                simpa using this
              obtain ⟨w, hw, hgw⟩ := ih (j + 1) _ rec h jd₀ hjd₀ hlast₀
              refine ⟨w, ?_, by simpa using hgw⟩
              have : j + (jd₀ + 1) = j + 1 + jd₀ := by omega
              rw [this]
              simpa using hw

theorem genRows_ok (g : Rng) (jkv : Option (List Int)) (nc : Nat) (cols : List Column) :
    ∀ (m i : Nat) (l : List Record), genRows g jkv nc cols i m = .ok l →
      l.length = m ∧
      ∀ (t : Nat) (ht : t < l.length),
        ∃ rec, genRecord g jkv nc (i + t) cols 0 [] = .ok rec ∧ l.get ⟨t, ht⟩ = rec := by
  intro m
  induction m with
  | zero => intro i l h; cases h; exact ⟨rfl, by intro t ht; simp at ht⟩
  | succ m₀ ih =>
      intro i l h
      unfold genRows at h
      cases hr : genRecord g jkv nc i cols 0 [] with
      | error e => rw [hr] at h; cases h
      | ok r =>
          rw [hr] at h
          cases hrest : genRows g jkv nc cols (i + 1) m₀ with
          | error e => rw [hrest] at h; cases h
          | ok rest =>
              rw [hrest] at h
              cases h
              obtain ⟨hlen, hget⟩ := ih (i + 1) rest hrest
              refine ⟨by simp [hlen], ?_⟩
              intro t ht
              cases t with
              | zero => exact ⟨r, by simpa using hr, rfl⟩
              | succ t₀ =>
                  have ht₀ : t₀ < rest.length := by simpa using Nat.lt_of_succ_lt_succ ht
                  obtain ⟨rec, hrec, hgetr⟩ := hget t₀ ht₀
                  exact ⟨rec, by simpa [Nat.add_comm, Nat.add_assoc, Nat.add_left_comm] using hrec,
                    by simpa using hgetr⟩

/-! ## Lemmas about `colValue`. -/

theorem pyChoice_ok_mem (g : Rng) (k : Nat) (xs : List α) (h : xs ≠ []) :
    ∃ x ∈ xs, pyChoice g k xs = .ok x := by
  cases xs with
  | nil => exact absurd rfl h
  | cons x rest => exact ⟨_, List.get_mem _ _ _, rfl⟩

theorem isPrefixOf_map (f : Char → Char) :
    ∀ (pat l : List Char), pat.isPrefixOf l = true → (pat.map f).isPrefixOf (l.map f) = true := by
  intro pat
  induction pat with
  | nil => intro l _; simp [List.isPrefixOf]
  | cons a as ih =>
      intro l h
      cases l with
      | nil => simp [List.isPrefixOf] at h
      | cons b bs =>
          simp only [List.isPrefixOf, Bool.and_eq_true, beq_iff_eq] at h
          simp only [List.map, List.isPrefixOf, Bool.and_eq_true, beq_iff_eq]
          exact ⟨by rw [h.1], ih bs h.2⟩

theorem infixOfChars_map (f : Char → Char) :
    ∀ (l pat : List Char), infixOfChars l pat = true → infixOfChars (l.map f) (pat.map f) = true := by
  intro l
  induction l with
  | nil =>
      intro pat h
      cases pat with
      | nil => simp [infixOfChars]
      | cons p ps => simp [infixOfChars] at h
  | cons x rest ih =>
      intro pat h
      cases pat with
      | nil => simp [infixOfChars]
      | cons p ps =>
          simp only [infixOfChars, Bool.or_eq_true] at h ⊢
          rcases h with h | h
          · exact Or.inl (isPrefixOf_map f _ _ h)
          · exact Or.inr (ih _ h)

theorem strContains_pyUpper_ID (s : String) (h : strContains s "ID" = true) :
    strContains (pyUpper s) "ID" = true := by
  have hm := infixOfChars_map Char.toUpper s.data ("ID".data) h
  have hid : ("ID".data.map Char.toUpper) = "ID".data := by decide
  simpa [strContains, pyUpper, hid] using hm

/-- Column types the per-row value mapping recognises explicitly
(every branch of the if/elif chain, lines 147-174). -/
def recognizedType (ty : String) : Bool :=
  decide (ty ∈ ["STRING", "VARCHAR", "TEXT", "NUMBER", "INTEGER", "INT", "FLOAT", "DECIMAL",
    "DOUBLE", "DATE", "TIMESTAMP", "DATETIME", "BOOLEAN"])

theorem colValueType_string_mem (g : Rng) (k i : Nat) (nm ctype : String) (sv : List String)
    (htype : ctype = "STRING" ∨ ctype = "VARCHAR" ∨ ctype = "TEXT") (hsv : sv ≠ []) :
    ∃ s ∈ sv, colValueType g k i nm ctype sv = .ok (.str s) := by
  obtain ⟨s, hmem, hch⟩ := pyChoice_ok_mem g k sv hsv
  exact ⟨s, hmem, by simp [colValueType, htype, hsv, hch, Except.map]⟩

theorem colValueType_id (g : Rng) (k i : Nat) (nm ctype : String) (sv : List String)
    (htype : ctype = "NUMBER" ∨ ctype = "INTEGER" ∨ ctype = "INT")
    (hid : strContains (pyUpper nm) "ID" = true) (hnm : nm ≠ "ENTITY_ID") :
    colValueType g k i nm ctype sv = .ok (.int (i + 1)) := by
  have hns : ¬ (ctype = "STRING" ∨ ctype = "VARCHAR" ∨ ctype = "TEXT") := by
    rcases htype with h | h | h <;> subst h <;> decide
  simp [colValueType, hns, htype, hid, hnm]

theorem colValueType_default (g : Rng) (k i : Nat) (nm ctype : String) (sv : List String)
    (hun : recognizedType ctype = false) (hsv : sv = []) :
    colValueType g k i nm ctype sv = .ok (.str ("Value_" ++ toString (i + 1))) := by
  have hmem : ctype ∉ ["STRING", "VARCHAR", "TEXT", "NUMBER", "INTEGER", "INT", "FLOAT",
      "DECIMAL", "DOUBLE", "DATE", "TIMESTAMP", "DATETIME", "BOOLEAN"] := by
    simpa [recognizedType] using hun
  simp only [List.mem_cons, List.not_mem_nil, or_false, not_or] at hmem
  obtain ⟨h₁, h₂, h₃, h₄, h₅, h₆, h₇, h₈, h₉, h₁₀, h₁₁, h₁₂, h₁₃⟩ := hmem
  simp [colValueType, h₁, h₂, h₃, h₄, h₅, h₆, h₇, h₈, h₉, h₁₀, h₁₁, h₁₂, h₁₃, hsv]

theorem colValue_eq_colValueType (g : Rng) (jkv : Option (List Int)) (nc i j : Nat)
    (col : Column) (hent : ¬ (col.name = "ENTITY_ID" ∧ jkv.isSome)) :
    colValue g jkv nc i j col =
      colValueType g (2 * (i * nc + j)) i col.name (pyUpper col.type) col.sample_values := by
  unfold colValue
  cases jkv with
  | none => rfl
  | some keys =>
      have : col.name ≠ "ENTITY_ID" := fun hc => hent ⟨hc, rfl⟩
      simp [this]

/-! ## Claim C1. -/

/-- The per-column conclusion of claim C1 about a generated record `rec` of
row index `i`: a STRING/VARCHAR/TEXT column with samples draws from its
samples, a NUMBER/INTEGER/INT column whose name contains "ID" (other than
ENTITY_ID) is the row number `i + 1`, and an unrecognized type without
samples is the string `Value_` followed by the row number. The first and
third clauses exclude an ENTITY_ID column when join key values are supplied,
where the join-key assignment takes precedence. -/
def C1ColSpec (jkv : Option (List Int)) (i : Nat) (rec : Record) (col : Column) : Prop :=
  ((pyUpper col.type = "STRING" ∨ pyUpper col.type = "VARCHAR" ∨ pyUpper col.type = "TEXT") ∧
      col.sample_values ≠ [] ∧ ¬ (col.name = "ENTITY_ID" ∧ jkv.isSome) →
    ∃ s ∈ col.sample_values, dictGet rec col.name = some (.str s)) ∧
  ((pyUpper col.type = "NUMBER" ∨ pyUpper col.type = "INTEGER" ∨ pyUpper col.type = "INT") ∧
      strContains col.name "ID" = true ∧ col.name ≠ "ENTITY_ID" →
    dictGet rec col.name = some (.int (i + 1))) ∧
  (recognizedType (pyUpper col.type) = false ∧ col.sample_values = [] ∧
      ¬ (col.name = "ENTITY_ID" ∧ jkv.isSome) →
    dictGet rec col.name = some (.str ("Value_" ++ toString (i + 1))))

/-- C1 (amended): when `generate_data_from_schema` returns normally, it
returns exactly `num_records` records; every record assigns a value to every
declared column name, and every column not shadowed by a later column of the
same name satisfies the per-type value mapping of the claim (`C1ColSpec`).
The unamended claim also asserts that a list is always returned, which is
false: see the counterexample. -/
theorem claim_C1_generate_data_from_schema (g : Rng) (schema : SchemaData) (n : Nat)
    (jkv : Option (List Int)) (data : List Record)
    (h : generate_data_from_schema g schema n jkv = .ok data) :
    data.length = n ∧
    ∀ (i : Nat) (hi : i < data.length),
      (∀ name ∈ schema.columns.map Column.name, (dictGet (data.get ⟨i, hi⟩) name).isSome) ∧
      ∀ (jd : Nat) (hjd : jd < schema.columns.length),
        (∀ (jd' : Nat) (hjd' : jd' < schema.columns.length), jd < jd' →
          (schema.columns.get ⟨jd', hjd'⟩).name ≠ (schema.columns.get ⟨jd, hjd⟩).name) →
        C1ColSpec jkv i (data.get ⟨i, hi⟩) (schema.columns.get ⟨jd, hjd⟩) := by
  obtain ⟨hlen, hget⟩ := genRows_ok g jkv schema.columns.length schema.columns n 0 data h
  refine ⟨hlen, ?_⟩
  intro i hi
  obtain ⟨rec, hrec, hgetr⟩ := hget i hi
  rw [Nat.zero_add] at hrec
  constructor
  · intro name hname
    rw [hgetr]
    exact genRecord_isSome_of_mem g jkv _ i name schema.columns 0 [] rec hrec hname
  · intro jd hjd hlast
    obtain ⟨v, hv, hgv⟩ := genRecord_last_occurrence g jkv _ i schema.columns 0 [] rec hrec jd hjd hlast
    rw [Nat.zero_add] at hv
    set col := schema.columns.get ⟨jd, hjd⟩ with hcol
    refine ⟨?_, ?_, ?_⟩
    · rintro ⟨htype, hsv, hent⟩
      rw [colValue_eq_colValueType g jkv _ i jd col hent] at hv
      obtain ⟨s, hmem, hcv⟩ := colValueType_string_mem g (2 * (i * schema.columns.length + jd)) i
        col.name (pyUpper col.type) col.sample_values htype hsv
      rw [hcv] at hv
      cases hv
      exact ⟨s, hmem, by rw [hgetr]; exact hgv⟩
    · rintro ⟨htype, hid, hnm⟩
      have hent : ¬ (col.name = "ENTITY_ID" ∧ jkv.isSome) := fun hc => hnm hc.1
      rw [colValue_eq_colValueType g jkv _ i jd col hent] at hv
      rw [colValueType_id g _ i col.name (pyUpper col.type) col.sample_values htype
        (strContains_pyUpper_ID col.name hid) hnm] at hv
      cases hv
      rw [hgetr]
      exact hgv
    · rintro ⟨htype, hsv, hent⟩
      rw [colValue_eq_colValueType g jkv _ i jd col hent] at hv
      rw [colValueType_default g _ i col.name (pyUpper col.type) col.sample_values htype hsv] at hv
      cases hv
      rw [hgetr]
      exact hgv

/-- The all-zero random oracle, used for concrete evaluations. -/
def gZero : Rng := fun _ => 0

/-- Schema with a NUMBER column whose samples hold no digit-only string. -/
def c1cexSchema : SchemaData := ⟨[⟨"QTY", "NUMBER", ["abc"]⟩]⟩

/-- C1 (counterexample): for the schema with one NUMBER column named QTY and
sample values `["abc"]` (a name declaring a name, a type and a sample list,
as the claim requires) and `num_records = 1`, `generate_data_from_schema`
does not return a list at all: `random.choice` is applied to the empty list
of digit-only samples and raises IndexError, contradicting the stated claim
that a list of exactly `num_records` records is returned for every schema. -/
theorem claim_C1_counterexample :
    generate_data_from_schema gZero c1cexSchema 1 none =
      .error "IndexError: cannot choose from an empty sequence" := by rfl

/-- Witness schema for C1: an ID-bearing NUMBER column, a STRING column with
samples, and a column of unrecognized type without samples. -/
def c1wSchema : SchemaData :=
  ⟨[⟨"ORDER_ID", "NUMBER", []⟩, ⟨"NOTE", "STRING", ["x", "y"]⟩, ⟨"W", "WEIRD", []⟩]⟩

/-- The row `generate_data_from_schema` produces for the witness schema
under the all-zero oracle. -/
def c1wRow : Record := [("ORDER_ID", .int 1), ("NOTE", .str "x"), ("W", .str "Value_1")]

/-- C1 (witness): the amended claim applied at a concrete schema. -/
theorem claim_C1_witness :
    [c1wRow].length = 1 ∧
    (∀ name ∈ c1wSchema.columns.map Column.name, (dictGet c1wRow name).isSome) ∧
    C1ColSpec none 0 c1wRow ⟨"NOTE", "STRING", ["x", "y"]⟩ := by
  have h := claim_C1_generate_data_from_schema gZero c1wSchema 1 none [c1wRow] (by rfl)
  refine ⟨h.1, ?_, ?_⟩
  · intro name hname
    exact (h.2 0 (by decide)).1 name hname
  · exact (h.2 0 (by decide)).2 1 (by decide) (by decide)

/-! ## Claim C2. -/

/-- The failure condition of claim C2: the LLM call raised, or no JSON
object could be extracted from the response, or `json.loads` failed on the
extracted substring. -/
def C2FailCond (llm : Except String String)
    (jsonLoads : String → Except String SchemaData) : Prop :=
  match llm with
  | .error _ => True
  | .ok resp =>
    match extractBraces resp with
    | none => True
    | some js => ∃ e, jsonLoads js = .error e

/-- C2 (confirmed): whenever the LLM call raises or its response cannot be
parsed into JSON, `generate_realistic_content_with_llm` returns exactly the
fallback dataset `create_sample_data` produces for the same record count,
company name and join key values, and no exception propagates (the result is
the value of the fallback call itself). -/
theorem claim_C2_llm_failure_fallback (g : Rng) (llm : Except String String)
    (jsonLoads : String → Except String SchemaData) (n : Nat) (company : String)
    (jkv : Option (List Int)) (h : C2FailCond llm jsonLoads) :
    generate_realistic_content_with_llm g llm jsonLoads n company jkv =
      create_sample_data g n company jkv := by
  unfold generate_realistic_content_with_llm generate_fallback_data
  cases llm with
  | error e => rfl
  | ok resp =>
      unfold C2FailCond at h
      dsimp only at h ⊢
      cases hx : extractBraces resp with
      | none => rfl
      | some js =>
          rw [hx] at h
          dsimp only at h ⊢
          obtain ⟨e, he⟩ := h
          rw [he]

/-- C2 (witness): the theorem applied to a failing LLM call. -/
theorem claim_C2_witness :
    generate_realistic_content_with_llm gZero (.error "boom")
        (fun _ => .error "unused") 1 "ACME" none =
      create_sample_data gZero 1 "ACME" none :=
  claim_C2_llm_failure_fallback gZero (.error "boom") (fun _ => .error "unused") 1 "ACME" none
    trivial

/-! ## Claim C3. -/

/-- The continuation of `generate_realistic_content_with_llm` applied to the
result of the JSON parse: generate data from a parsed schema, fall back on a
parse failure or a generation exception. -/
def parsedSchemaPath (g : Rng) (r : Except String SchemaData) (n : Nat) (company : String)
    (jkv : Option (List Int)) : Except String (List Record) :=
  match r with
  | .error _ => generate_fallback_data g n company jkv
  | .ok schema =>
    match generate_data_from_schema g schema n jkv with
    | .error _ => generate_fallback_data g n company jkv
    | .ok d => .ok d

/-- C3 (amended): when the first opening brace of the response precedes the
last closing brace, the extracted substring is exactly the slice running
from that first opening brace to that last closing brace, and the pipeline
passes exactly that slice to the JSON parser; when the response has no such
pair (no opening brace, no closing brace, or every closing brace before the
first opening brace), nothing is extracted and the fallback dataset is
returned. The unamended claim asserts extraction already when at least one
opening and one closing brace are present, which is refuted by the
counterexample below. -/
theorem claim_C3_brace_extraction (s : String) :
    (∀ (i j : Nat), firstIdxOf lbc s.data = some i → lastIdxOf rbc s.data = some j → i < j →
      extractBraces s = some (sliceIncl s i j) ∧
      ∀ (g : Rng) (jsonLoads : String → Except String SchemaData) (n : Nat) (company : String)
        (jkv : Option (List Int)),
        generate_realistic_content_with_llm g (.ok s) jsonLoads n company jkv =
          parsedSchemaPath g (jsonLoads (sliceIncl s i j)) n company jkv) ∧
    ((∀ (i j : Nat), firstIdxOf lbc s.data = some i → lastIdxOf rbc s.data = some j → ¬ i < j) ∨
        firstIdxOf lbc s.data = none ∨ lastIdxOf rbc s.data = none →
      extractBraces s = none ∧
      ∀ (g : Rng) (jsonLoads : String → Except String SchemaData) (n : Nat) (company : String)
        (jkv : Option (List Int)),
        generate_realistic_content_with_llm g (.ok s) jsonLoads n company jkv =
          create_sample_data g n company jkv) := by
  constructor
  · intro i j hi hj hlt
    have hx : extractBraces s = some (sliceIncl s i j) := by
      unfold extractBraces
      rw [hi, hj]
      dsimp only
      rw [if_pos hlt]
    refine ⟨hx, ?_⟩
    intro g jsonLoads n company jkv
    unfold generate_realistic_content_with_llm parsedSchemaPath
    dsimp only
    rw [hx]
  · intro hcond
    have hx : extractBraces s = none := by
      unfold extractBraces
      rcases hcond with h | h | h
      · cases hi : firstIdxOf lbc s.data with
        | none => rfl
        | some i =>
            cases hj : lastIdxOf rbc s.data with
            | none => rfl
            | some j =>
            dsimp only
            rw [if_neg (h i j hi hj)]
      · rw [h]
      · rw [h]; cases firstIdxOf lbc s.data <;> rfl
    refine ⟨hx, ?_⟩
    intro g jsonLoads n company jkv
    unfold generate_realistic_content_with_llm
    dsimp only
    rw [hx]
    rfl

/-- The response consisting of a closing brace followed by an opening one. -/
def c3cexResp : String := String.mk [rbc, lbc]

/-- C3 (counterexample): the response made of one closing brace followed by
one opening brace contains at least one of each brace, yet `re.search`
produces no match, so no substring is extracted and no JSON is parsed,
contradicting the claim that a substring from the first opening brace to the
last closing brace is extracted for every such response. -/
theorem claim_C3_counterexample :
    c3cexResp.data.count lbc = 1 ∧ c3cexResp.data.count rbc = 1 ∧
      extractBraces c3cexResp = none := by decide

/-- C3 (witness): the amended claim applied to a response with a proper
brace pair and to one without. -/
theorem claim_C3_witness :
    (extractBraces "a{b}c" = some "{b}" ∧
      extractBraces (String.mk [rbc, lbc]) = none) ∧
    generate_realistic_content_with_llm gZero (.ok (String.mk [rbc, lbc]))
        (fun _ => .error "unused") 2 "ACME" none =
      create_sample_data gZero 2 "ACME" none := by
  have h₁ := (claim_C3_brace_extraction "a{b}c").1 1 3 (by decide) (by decide) (by decide)
  have h₂ := (claim_C3_brace_extraction (String.mk [rbc, lbc])).2
    (Or.inl (by
      intro i j hi hj
      have hi2 : some i = some 1 := hi.symm.trans (by rfl)
      have hj2 : some j = some 0 := hj.symm.trans (by rfl)
      injection hi2 with hi3
      injection hj2 with hj3
      subst hi3
      subst hj3
      decide))
  exact ⟨⟨by rw [h₁.1]; rfl, h₂.1⟩, h₂.2 gZero (fun _ => .error "unused") 2 "ACME" none⟩

/-! ## Claim C4. -/

/-- The safety condition of the amended claim C4 for one column: the
join-key read stays in range, a NUMBER/INTEGER/INT column that draws from
its samples has at least one digit-only sample, and every sample of a
FLOAT/DECIMAL/DOUBLE column converts to a float. These are exactly the
three ways a cell synthesis can raise. -/
def C4SafeColumn (jkv : Option (List Int)) (n : Nat) (col : Column) : Prop :=
  (col.name = "ENTITY_ID" ∧ jkv.isSome → n ≤ (jkv.getD []).length) ∧
  ((pyUpper col.type = "NUMBER" ∨ pyUpper col.type = "INTEGER" ∨ pyUpper col.type = "INT") →
    ¬ (strContains (pyUpper col.name) "ID" = true ∧ col.name ≠ "ENTITY_ID") →
    col.sample_values ≠ [] →
    col.sample_values.filter pyIsDigit ≠ []) ∧
  ((pyUpper col.type = "FLOAT" ∨ pyUpper col.type = "DECIMAL" ∨ pyUpper col.type = "DOUBLE") →
    ∀ s ∈ col.sample_values, pyIsDigit s = true ∨ colValueType.pyFloatLit s = true)

instance (jkv : Option (List Int)) (n : Nat) (col : Column) :
    Decidable (C4SafeColumn jkv n col) := by
  unfold C4SafeColumn
  exact inferInstance

theorem colValue_total (g : Rng) (jkv : Option (List Int)) (nc i j n : Nat) (col : Column)
    (hin : i < n) (hsafe : C4SafeColumn jkv n col) :
    ∃ v, colValue g jkv nc i j col = .ok v := by
  obtain ⟨hkey, hnum, hflo⟩ := hsafe
  have htotal : ∀ (k : Nat), ∃ v,
      colValueType g k i col.name (pyUpper col.type) col.sample_values = .ok v := by
    intro k
    unfold colValueType
    by_cases h₁ : pyUpper col.type = "STRING" ∨ pyUpper col.type = "VARCHAR" ∨ pyUpper col.type = "TEXT"
    · rw [if_pos h₁]
      by_cases hsv : col.sample_values ≠ []
      · obtain ⟨x, _, hch⟩ := pyChoice_ok_mem g k col.sample_values hsv
        exact ⟨.str x, by rw [if_pos hsv, hch]; rfl⟩
      · exact ⟨_, by rw [if_neg hsv]⟩
    · rw [if_neg h₁]
      by_cases h₂ : pyUpper col.type = "NUMBER" ∨ pyUpper col.type = "INTEGER" ∨ pyUpper col.type = "INT"
      · rw [if_pos h₂]
        by_cases hid : strContains (pyUpper col.name) "ID" = true ∧ col.name ≠ "ENTITY_ID"
        · exact ⟨_, by rw [if_pos hid]⟩
        · rw [if_neg hid]
          by_cases hsv : col.sample_values ≠ []
          · rw [if_pos hsv]
            have hfil := hnum h₂ hid hsv
            have hmap : (col.sample_values.filter pyIsDigit).map
                (fun s => (digitsToNat s : Int)) ≠ [] := by
              intro hc
              exact hfil (List.map_eq_nil_iff.mp hc)
            obtain ⟨x, _, hch⟩ := pyChoice_ok_mem g k _ hmap
            exact ⟨.int x, by rw [hch]; rfl⟩
          · exact ⟨_, by rw [if_neg hsv]⟩
      · rw [if_neg h₂]
        by_cases h₃ : pyUpper col.type = "FLOAT" ∨ pyUpper col.type = "DECIMAL" ∨ pyUpper col.type = "DOUBLE"
        · rw [if_pos h₃]
          by_cases hsv : col.sample_values ≠ []
          · rw [if_pos hsv]
            obtain ⟨x, hxm, hch⟩ := pyChoice_ok_mem g k col.sample_values hsv
            rw [hch]
            have := hflo h₃ x hxm
            exact ⟨.float x, by
              dsimp only
              rw [if_pos (by simpa using this)]⟩
          · exact ⟨_, by rw [if_neg hsv]⟩
        · rw [if_neg h₃]
          by_cases h₄ : pyUpper col.type = "DATE"
          · exact ⟨_, by rw [if_pos h₄]⟩
          · rw [if_neg h₄]
            by_cases h₅ : pyUpper col.type = "TIMESTAMP" ∨ pyUpper col.type = "DATETIME"
            · exact ⟨_, by rw [if_pos h₅]⟩
            · rw [if_neg h₅]
              by_cases h₆ : pyUpper col.type = "BOOLEAN"
              · rw [if_pos h₆]
                exact ⟨.bool (pyChoiceNE g k true [false]), by rfl⟩
              · rw [if_neg h₆]
                by_cases hsv : col.sample_values ≠ []
                · obtain ⟨x, _, hch⟩ := pyChoice_ok_mem g k col.sample_values hsv
                  exact ⟨.str x, by rw [if_pos hsv, hch]; rfl⟩
                · exact ⟨_, by rw [if_neg hsv]⟩
  unfold colValue
  cases hj : jkv with
  | none => exact htotal _
  | some keys =>
      dsimp only
      by_cases hent : col.name = "ENTITY_ID"
      · rw [if_pos hent]
        have hlen : n ≤ keys.length := by
          have := hkey ⟨hent, by rw [hj]; rfl⟩
          simpa [hj] using this
        have hi : i < keys.length := Nat.lt_of_lt_of_le hin hlen
        have hv : keys[i]? = some keys[i] := List.getElem?_eq_getElem hi
        exact ⟨.int keys[i], by rw [hv]⟩
      · rw [if_neg hent]
        exact htotal _

theorem genRecord_total (g : Rng) (jkv : Option (List Int)) (nc i n : Nat) (hin : i < n) :
    ∀ (cols : List Column) (j : Nat) (acc : Record),
      (∀ col ∈ cols, C4SafeColumn jkv n col) →
      ∃ rec, genRecord g jkv nc i cols j acc = .ok rec := by
  intro cols
  induction cols with
  | nil => exact fun j acc _ => ⟨acc, rfl⟩
  | cons c rest ih =>
      intro j acc hsafe
      obtain ⟨v, hv⟩ := colValue_total g jkv nc i j n c hin (hsafe c (List.mem_cons_self _ _))
      obtain ⟨rec, hrec⟩ := ih (j + 1) (dictInsert acc c.name v)
        (fun col hc => hsafe col (List.mem_cons_of_mem _ hc))
      exact ⟨rec, by unfold genRecord; rw [hv]; dsimp only; rw [hrec]⟩

theorem genRows_total (g : Rng) (jkv : Option (List Int)) (nc : Nat) (cols : List Column)
    (n : Nat) (hsafe : ∀ col ∈ cols, C4SafeColumn jkv n col) :
    ∀ (m i : Nat), i + m ≤ n → ∃ l, genRows g jkv nc cols i m = .ok l := by
  intro m
  induction m with
  | zero => exact fun i _ => ⟨[], rfl⟩
  | succ m₀ ih =>
      intro i hle
      obtain ⟨rec, hrec⟩ := genRecord_total g jkv nc i n (by omega) cols 0 [] hsafe
      obtain ⟨rest, hrest⟩ := ih (i + 1) (by omega)
      exact ⟨rec :: rest, by unfold genRows; rw [hrec, hrest]⟩

/-- C4 (amended): `generate_data_from_schema` terminates and returns without
raising for every schema whose columns all satisfy `C4SafeColumn`: join-key
reads in range, NUMBER/INTEGER/INT columns that draw from samples have a
digit-only sample, and FLOAT-family samples all convert. The unamended claim
asserts this for every schema, in particular for a NUMBER column with a
non-empty sample list containing no digit-only string; there the code
applies `random.choice` to an empty candidate list and raises IndexError
(see the counterexample). -/
theorem claim_C4_no_exception (g : Rng) (schema : SchemaData) (n : Nat)
    (jkv : Option (List Int))
    (hsafe : ∀ col ∈ schema.columns, C4SafeColumn jkv n col) :
    ∃ data, generate_data_from_schema g schema n jkv = .ok data := by
  unfold generate_data_from_schema
  exact genRows_total g jkv schema.columns.length schema.columns n hsafe n 0 (by omega)

/-- Schema with an INTEGER column whose samples hold no digit-only string. -/
def c4cexSchema : SchemaData := ⟨[⟨"AMOUNT", "INTEGER", ["oops"]⟩]⟩

/-- C4 (counterexample): an INTEGER column named AMOUNT with the single
non-digit sample value "oops" makes `generate_data_from_schema` raise
IndexError (the filtered digit-only candidate list passed to
`random.choice` is empty), contradicting the claim that the per-row value
mapping is total for that very case. -/
theorem claim_C4_counterexample :
    generate_data_from_schema gZero c4cexSchema 1 none =
      .error "IndexError: cannot choose from an empty sequence" := by rfl

/-- Witness schema for C4: covers the join-key, numeric-sample, float-sample,
date and default branches. -/
def c4wSchema : SchemaData :=
  ⟨[⟨"ENTITY_ID", "NUMBER", []⟩, ⟨"SCORE", "INTEGER", ["17", "nope", "3"]⟩,
    ⟨"RATE", "FLOAT", ["2.5", "7"]⟩, ⟨"WHEN_AT", "DATE", []⟩, ⟨"TAG", "MYSTERY", []⟩]⟩

/-- C4 (witness): the amended claim applied at a concrete schema with join
key values supplied. -/
theorem claim_C4_witness :
    ∃ data, generate_data_from_schema gZero c4wSchema 2 (some [41, 42]) = .ok data :=
  claim_C4_no_exception gZero c4wSchema 2 (some [41, 42]) (by decide)

/-! ## Claim C5. -/

theorem pyJoin_cons_cons (sep : String) (x y : String) (xs : List String) :
    pyJoin sep (x :: y :: xs) = x ++ sep ++ pyJoin sep (y :: xs) := rfl

theorem factLineWS_data_last (t1 : String) (f : Fact) :
    ∃ p, (factLineWS t1 f).data = p ++ [qc] := by
  refine ⟨("    " ++ factRefWS t1 f.table_column ++ " as " ++ f.name ++ " with synonyms=(" ++ qs ++
    synonymsStr (f.synonyms.map cleanSyn) ++ qs ++ ") comment=" ++ qs ++ escQuotes f.comment).data, ?_⟩
  rw [factLineWS, String.data_append]
  rfl

theorem factLine_data_last (f : Fact) :
    ∃ p, (factLine f).data = p ++ [qc] := by
  refine ⟨("    " ++ factRef f.table_column ++ " as " ++ f.name ++ " with synonyms=(" ++ qs ++
    synonymsStr f.synonyms ++ qs ++ ") comment=" ++ qs ++ escQuotes f.comment).data, ?_⟩
  rw [factLine, String.data_append]
  rfl

/-- Each element of a join over strings that all end in an apostrophe ends
in an apostrophe. -/
theorem pyJoin_data_last (sep : String) :
    ∀ (l : List String), l ≠ [] → (∀ s ∈ l, ∃ p, s.data = p ++ [qc]) →
      ∃ p, (pyJoin sep l).data = p ++ [qc] := by
  intro l
  induction l with
  | nil => intro h; exact absurd rfl h
  | cons x xs ih =>
      intro _ hall
      cases xs with
      | nil => exact hall x (List.mem_singleton.mpr rfl)
      | cons y ys =>
          obtain ⟨p, hp⟩ := ih (by simp) (fun s hs => hall s (List.mem_cons_of_mem _ hs))
          refine ⟨(x ++ sep).data ++ p, ?_⟩
          rw [pyJoin_cons_cons, String.data_append, hp, List.append_assoc]

/-- Stripping trailing newlines from a string ending in an apostrophe
followed by one newline recovers the string. -/
theorem rstripChar_newline (s : String) (p : List Char) (h : s.data = p ++ [qc]) :
    rstripChar '\n' (s ++ "\n") = s := by
  apply String.ext
  show ((s ++ "\n").data.reverse.dropWhile (· = '\n')).reverse = s.data
  rw [String.data_append, h]
  show ((((p ++ [qc]) ++ ['\n']).reverse).dropWhile (· = '\n')).reverse = p ++ [qc]
  rw [List.reverse_append, List.reverse_append]
  show (('\n' :: (qc :: p.reverse)).dropWhile (· = '\n')).reverse = p ++ [qc]
  rw [List.dropWhile_cons_of_pos (by decide), List.dropWhile_cons_of_neg (by decide)]
  simp

theorem assembleIndexedCore_eq (t1 : String) :
    ∀ (fs : List Fact), fs ≠ [] →
      assembleIndexedCore t1 fs = pyJoin ",\n" (fs.map (factLineWS t1)) ++ "\n" := by
  intro fs
  induction fs with
  | nil => intro h; exact absurd rfl h
  | cons f rest ih =>
      intro _
      cases rest with
      | nil => rfl
      | cons g gs =>
          show factLineWS t1 f ++ ",\n" ++ assembleIndexedCore t1 (g :: gs) = _
          rw [ih (by simp)]
          apply String.ext
          simp [pyJoin, String.data_append, List.append_assoc]

/-- The with-schema assembly is a comma-newline join of the rendered lines:
every entry except the final one is followed by a comma, the final one is
not, for every entry list (duplicates included). -/
theorem assembleIndexed_eq_join (t1 : String) (fs : List Fact) (h : fs ≠ []) :
    assembleIndexed t1 fs = pyJoin ",\n" (fs.map (factLineWS t1)) := by
  have hlast : ∃ p, (pyJoin ",\n" (fs.map (factLineWS t1))).data = p ++ [qc] := by
    refine pyJoin_data_last ",\n" _ (by simpa using h) ?_
    intro s hs
    obtain ⟨f, _, rfl⟩ := List.mem_map.mp hs
    exact factLineWS_data_last t1 f
  obtain ⟨p, hp⟩ := hlast
  rw [assembleIndexed, assembleIndexedCore_eq t1 fs h, rstripChar_newline _ p hp]

theorem assembleByValueCore_eq (lf : Fact) :
    ∀ (fs : List Fact), fs ≠ [] → fs.getLast? = some lf →
      (∀ f ∈ fs.dropLast, f ≠ lf) →
      assembleByValueCore lf fs = pyJoin ",\n" (fs.map factLine) ++ "\n" := by
  intro fs
  induction fs with
  | nil => intro h; exact absurd rfl h
  | cons f rest ih =>
      intro _ hlast hdrop
      cases rest with
      | nil =>
          have hf : f = lf := by simpa using hlast
          show factLine f ++ (if f ≠ lf then "," else "") ++ "\n" ++ assembleByValueCore lf [] = _
          rw [if_neg (by simp [hf])]
          apply String.ext
          simp [assembleByValueCore, pyJoin, String.data_append]
      | cons g gs =>
          have hne : f ≠ lf := hdrop f (by simp [List.dropLast])
          have hrest := ih (by simp) (by simpa using hlast)
            (fun x hx => hdrop x (by simp [List.dropLast, hx]))
          show factLine f ++ (if f ≠ lf then "," else "") ++ "\n" ++ assembleByValueCore lf (g :: gs) = _
          rw [if_pos hne, hrest]
          apply String.ext
          simp [pyJoin, String.data_append, List.append_assoc]

/-- The value-compared assembly agrees with the comma-newline join when no
non-final entry equals the final one. -/
theorem assembleByValue_eq_join (fs : List Fact) (h : fs ≠ [])
    (hdup : ∀ f ∈ fs.dropLast, f ≠ fs.getLast h) :
    assembleByValue fs = pyJoin ",\n" (fs.map factLine) := by
  have hlast : ∃ p, (pyJoin ",\n" (fs.map factLine)).data = p ++ [qc] := by
    refine pyJoin_data_last ",\n" _ (by simpa using h) ?_
    intro s hs
    obtain ⟨f, _, rfl⟩ := List.mem_map.mp hs
    exact factLine_data_last f
  obtain ⟨p, hp⟩ := hlast
  rw [assembleByValue, List.getLast?_eq_getLast fs h]
  dsimp only
  rw [assembleByValueCore_eq (fs.getLast h) fs h (List.getLast?_eq_getLast fs h) hdup,
    rstripChar_newline _ p hp]

/-- C5 (amended): for every nonempty entry list (facts or dimensions alike;
both blocks are assembled by the same loops), the SQL block assembled by
`generate_semantic_elements_with_schema` is the comma-newline join of one
rendered line per entry — every entry except the final one followed by a
comma, the final one not — for all lists including those with duplicate
entries; the block assembled by `generate_semantic_elements` satisfies the
same property only when no non-final entry is value-equal to the final
entry, because its loop decides the comma by comparing each entry with the
final one (see the counterexample for a duplicate list where a comma is
dropped). -/
theorem claim_C5_sql_blocks (t1 : String) (entries : List Fact) (hne : entries ≠ []) :
    assembleIndexed t1 entries = pyJoin ",\n" (entries.map (factLineWS t1)) ∧
    ((∀ f ∈ entries.dropLast, f ≠ entries.getLast hne) →
      assembleByValue entries = pyJoin ",\n" (entries.map factLine)) :=
  ⟨assembleIndexed_eq_join t1 entries hne,
   fun hdup => assembleByValue_eq_join entries hne hdup⟩

/-- A duplicated fact entry. -/
def c5fA : Fact := ⟨"T.X", "X", ["s1", "s2"], "cA"⟩

/-- A second, distinct fact entry. -/
def c5fB : Fact := ⟨"T.Y", "Y", ["s3"], "cB"⟩

/-- C5 (counterexample): on the duplicate-bearing list `[A, B, A]` the
assembly of `generate_semantic_elements` is not the comma-separated join of
its lines: the first entry, being value-equal to the final entry, loses its
comma, so the FACTS block is malformed, contradicting the claim for lists
that contain duplicate entries. -/
theorem claim_C5_counterexample :
    assembleByValue [c5fA, c5fB, c5fA] ≠
      pyJoin ",\n" ([c5fA, c5fB, c5fA].map factLine) := by decide

/-- C5 (witness): the amended claim applied to a concrete two-entry list. -/
theorem claim_C5_witness :
    assembleIndexed "T1" [c5fA, c5fB] = pyJoin ",\n" ([c5fA, c5fB].map (factLineWS "T1")) ∧
    assembleByValue [c5fA, c5fB] = pyJoin ",\n" ([c5fA, c5fB].map factLine) := by
  have h := claim_C5_sql_blocks "T1" [c5fA, c5fB] (by decide)
  exact ⟨h.1, h.2 (by decide)⟩

/-! ## Claim C6. -/

/-- The row `create_sample_data` builds at index `i` without join keys. -/
def sampleRowNone (g : Rng) (company : String) (i : Nat) : Record :=
  [("ID", .int (i + 1)),
   ("NAME", .str (pyReplaceChar company '-' '_' ++ "_Item_" ++ toString (i + 1))),
   ("CATEGORY", .str (pyChoiceNE g (8 * i + 2) "A" ["B", "C", "Premium"])),
   ("VALUE", .float (toString (g (8 * i + 3)))),
   ("STATUS", .str (pyChoiceNE g (8 * i + 4) "Active" ["Inactive", "Pending"])),
   ("CREATED_DATE", .date (pyRandint g (8 * i + 5) 1 365)),
   ("MODIFIED_TIMESTAMP", .datetime (pyRandint g (8 * i + 6) 0 30) 0)]

/-- The row `create_sample_data` builds at index `i` when join keys are
supplied and `join_key_values[i] = v`. -/
def sampleRowSome (g : Rng) (company : String) (i : Nat) (v : Int) : Record :=
  [("ENTITY_ID", .int v),
   ("ID", .int (i + 1)),
   ("NAME", .str (pyReplaceChar company '-' '_' ++ "_Item_" ++ toString (i + 1))),
   ("CATEGORY", .str (pyChoiceNE g (8 * i + 3) "A" ["B", "C", "Premium"])),
   ("VALUE", .float (toString (g (8 * i + 4)))),
   ("STATUS", .str (pyChoiceNE g (8 * i + 5) "Active" ["Inactive", "Pending"])),
   ("CREATED_DATE", .date (pyRandint g (8 * i + 6) 1 365)),
   ("MODIFIED_TIMESTAMP", .datetime (pyRandint g (8 * i + 7) 0 30) 0)]

theorem sampleRecord_none_eq (g : Rng) (company : String) (i : Nat) :
    sampleRecord g company none i (sampleBaseColumns none) 0 [] =
      .ok (sampleRowNone g company i) := rfl

theorem sampleRecord_some_eq (g : Rng) (company : String) (keys : List Int) (i : Nat)
    (v : Int) (hv : keys.get? i = some v) :
    sampleRecord g company (some keys) i (sampleBaseColumns (some keys)) 0 [] =
      .ok (sampleRowSome g company i v) := by
  have h0 : sampleColVal g company (some keys) i 0 "ENTITY_ID" = .ok (some (.int v)) := by
    unfold sampleColVal
    rw [if_pos ⟨rfl, rfl⟩]
    dsimp only [Option.getD]
    rw [hv]
  show (match sampleColVal g company (some keys) i 0 "ENTITY_ID" with
    | Except.error e => Except.error e
    | Except.ok none => sampleRecord g company (some keys) i _ (0 + 1) []
    | Except.ok (some v) =>
        sampleRecord g company (some keys) i _ (0 + 1) (dictInsert [] "ENTITY_ID" v)) =
      Except.ok (sampleRowSome g company i v)
  rw [h0]
  rfl

theorem sampleRows_none_eq (g : Rng) (company : String) :
    ∀ (m i : Nat), sampleRows g company none (sampleBaseColumns none) i m =
      .ok ((List.range m).map (fun t => sampleRowNone g company (i + t))) := by
  intro m
  induction m with
  | zero => intro i; rfl
  | succ m₀ ih =>
      intro i
      show (match sampleRecord g company none i (sampleBaseColumns none) 0 [] with
        | Except.error e => Except.error e
        | Except.ok r =>
          match sampleRows g company none (sampleBaseColumns none) (i + 1) m₀ with
          | Except.error e => Except.error e
          | Except.ok rest => Except.ok (r :: rest)) = _
      rw [sampleRecord_none_eq, ih (i + 1)]
      dsimp only
      congr 1
      rw [List.range_succ_eq_map, List.map_cons, List.map_map]
      refine congrArg₂ List.cons (by rw [Nat.add_zero]) ?_
      refine List.map_congr_left (fun t _ => ?_)
      simp only [Function.comp_apply, Nat.succ_eq_add_one]
      rw [show i + 1 + t = i + (t + 1) from by omega]

theorem sampleRows_some_eq (g : Rng) (company : String) (keys : List Int) :
    ∀ (m i : Nat), i + m ≤ keys.length →
      sampleRows g company (some keys) (sampleBaseColumns (some keys)) i m =
        .ok ((List.range m).map (fun t => sampleRowSome g company (i + t) (keys.getD (i + t) 0))) := by
  intro m
  induction m with
  | zero => intro i _; rfl
  | succ m₀ ih =>
      intro i hle
      have hi : i < keys.length := by omega
      have hv : keys.get? i = some (keys.getD i 0) := by
        rw [List.get?_eq_get hi, List.getD_eq_get]
      show (match sampleRecord g company (some keys) i (sampleBaseColumns (some keys)) 0 [] with
        | Except.error e => Except.error e
        | Except.ok r =>
          match sampleRows g company (some keys) (sampleBaseColumns (some keys)) (i + 1) m₀ with
          | Except.error e => Except.error e
          | Except.ok rest => Except.ok (r :: rest)) = _
      rw [sampleRecord_some_eq g company keys i _ hv, ih (i + 1) (by omega)]
      dsimp only
      congr 1
      rw [List.range_succ_eq_map, List.map_cons, List.map_map]
      refine congrArg₂ List.cons (by rw [Nat.add_zero]) ?_
      refine List.map_congr_left (fun t _ => ?_)
      simp only [Function.comp_apply, Nat.succ_eq_add_one]
      rw [show i + 1 + t = i + (t + 1) from by omega]

/-- C6 (confirmed): `create_sample_data` returns exactly `num_records`
records; without join keys every record has exactly the columns ID, NAME,
CATEGORY, VALUE, STATUS, CREATED_DATE, MODIFIED_TIMESTAMP in that order;
with join keys (holding at least `num_records` values, which the claim's
indexing `join_key_values[i]` presupposes) a leading ENTITY_ID column is
added; the ID of the i-th record is `i + 1`, and with join keys the
ENTITY_ID of the i-th record is `join_key_values[i]`. -/
theorem claim_C6_create_sample_data (g : Rng) (n : Nat) (company : String) :
    (∃ data, create_sample_data g n company none = .ok data ∧ data.length = n ∧
      ∀ (i : Nat) (hi : i < data.length),
        (data.get ⟨i, hi⟩).map Prod.fst =
          ["ID", "NAME", "CATEGORY", "VALUE", "STATUS", "CREATED_DATE", "MODIFIED_TIMESTAMP"] ∧
        dictGet (data.get ⟨i, hi⟩) "ID" = some (.int (i + 1))) ∧
    (∀ keys : List Int, n ≤ keys.length →
      ∃ data, create_sample_data g n company (some keys) = .ok data ∧ data.length = n ∧
        ∀ (i : Nat) (hi : i < data.length),
          (data.get ⟨i, hi⟩).map Prod.fst =
            ["ENTITY_ID", "ID", "NAME", "CATEGORY", "VALUE", "STATUS", "CREATED_DATE",
              "MODIFIED_TIMESTAMP"] ∧
          dictGet (data.get ⟨i, hi⟩) "ID" = some (.int (i + 1)) ∧
          ∀ (hik : i < keys.length),
            dictGet (data.get ⟨i, hi⟩) "ENTITY_ID" = some (.int (keys.get ⟨i, hik⟩))) := by
  constructor
  · refine ⟨_, by unfold create_sample_data; exact sampleRows_none_eq g company n 0, by simp, ?_⟩
    intro i hi
    have hig : i < n := by simpa using hi
    have hget : ((List.range n).map (fun t => sampleRowNone g company (0 + t))).get ⟨i, hi⟩ =
        sampleRowNone g company i := by
      simp [List.get_map]
    rw [hget]
    exact ⟨rfl, rfl⟩
  · intro keys hkeys
    refine ⟨_, by unfold create_sample_data; exact sampleRows_some_eq g company keys n 0 (by omega),
      by simp, ?_⟩
    intro i hi
    have hig : i < n := by simpa using hi
    have hget : ((List.range n).map
        (fun t => sampleRowSome g company (0 + t) (keys.getD (0 + t) 0))).get ⟨i, hi⟩ =
        sampleRowSome g company i (keys.getD i 0) := by
      simp [List.get_map]
    rw [hget]
    refine ⟨rfl, rfl, ?_⟩
    intro hik
    have : keys.getD i 0 = keys.get ⟨i, hik⟩ := List.getD_eq_get keys 0 hik
    rw [sampleRowSome, this]
    rfl

/-- C6 (witness): the claim applied at one record with a join key. -/
theorem claim_C6_witness :
    ∃ data, create_sample_data gZero 1 "ACME" (some [7]) = .ok data ∧ data.length = 1 ∧
      ∀ (i : Nat) (hi : i < data.length),
        (data.get ⟨i, hi⟩).map Prod.fst =
          ["ENTITY_ID", "ID", "NAME", "CATEGORY", "VALUE", "STATUS", "CREATED_DATE",
            "MODIFIED_TIMESTAMP"] ∧
        dictGet (data.get ⟨i, hi⟩) "ID" = some (.int (i + 1)) ∧
        ∀ (hik : i < ([7] : List Int).length),
          dictGet (data.get ⟨i, hi⟩) "ENTITY_ID" = some (.int (([7] : List Int).get ⟨i, hik⟩)) :=
  (claim_C6_create_sample_data gZero 1 "ACME").2 [7] (by decide)

/-! ## Claim C7. -/

/-- C7 (confirmed): `create_semantic_view` either returns the result
dictionary — holding the cleaned view name, the example queries, and the
join key ENTITY_ID — or returns `none`; it returns `none` (rather than
raising) when either table schema could not be retrieved (the empty-list
failure value of `get_table_schema`) and when executing the assembled
CREATE SEMANTIC VIEW statement raises; and `create_cortex_search_service`
returns the service name `<table>_SEARCH_SERVICE` on success and `none`
when execution raises. -/
theorem claim_C7_none_on_failure (exec : String → Except String Unit)
    (schemaName t1 t2 : String) (sch1 sch2 : List ColInfo) (elems : String × String)
    (queries : List String) (title company : String) :
    (create_semantic_view exec schemaName t1 t2 sch1 sch2 elems queries title company = none ∨
      ∃ r, create_semantic_view exec schemaName t1 t2 sch1 sch2 elems queries title company =
          some r ∧
        r.view_name = semanticViewName company ∧ r.example_queries = queries ∧
        r.join_key = "ENTITY_ID") ∧
    (sch1 = [] ∨ sch2 = [] →
      create_semantic_view exec schemaName t1 t2 sch1 sch2 elems queries title company = none) ∧
    (∀ e, exec (semanticViewSql schemaName (semanticViewName company) t1 t2 elems.1 elems.2
          ("Semantic view for " ++ title ++ " combining " ++ t1 ++ " and " ++ t2 ++ " data")) =
        .error e →
      create_semantic_view exec schemaName t1 t2 sch1 sch2 elems queries title company = none) ∧
    (∀ (exec₂ : String → Except String Unit) (sn tn sc : String),
      (exec₂ (searchServiceSql sn (tn ++ "_SEARCH_SERVICE") tn sc) = .ok () →
        create_cortex_search_service exec₂ sn tn sc = some (tn ++ "_SEARCH_SERVICE")) ∧
      (∀ e, exec₂ (searchServiceSql sn (tn ++ "_SEARCH_SERVICE") tn sc) = .error e →
        create_cortex_search_service exec₂ sn tn sc = none)) := by
  refine ⟨?_, ?_, ?_, ?_⟩
  · unfold create_semantic_view
    by_cases hs : sch1 = [] ∨ sch2 = []
    · rw [if_pos hs]; exact Or.inl rfl
    · rw [if_neg hs]
      dsimp only
      cases hx : exec (semanticViewSql schemaName (semanticViewName company) t1 t2 elems.1
          elems.2 ("Semantic view for " ++ title ++ " combining " ++ t1 ++ " and " ++ t2 ++ " data")) with
      | ok u => exact Or.inr ⟨_, rfl, rfl, rfl, rfl⟩
      | error e => exact Or.inl rfl
  · intro hs
    unfold create_semantic_view
    rw [if_pos hs]
  · intro e he
    unfold create_semantic_view
    by_cases hs : sch1 = [] ∨ sch2 = []
    · rw [if_pos hs]
    · rw [if_neg hs]
      dsimp only
      rw [he]
  · intro exec₂ sn tn sc
    constructor
    · intro hok
      unfold create_cortex_search_service
      dsimp only
      rw [hok]
    · intro e he
      unfold create_cortex_search_service
      dsimp only
      rw [he]

/-- C7 (witness): a successful view creation, an empty-schema failure, and
a failing search-service execution, at concrete inputs. -/
theorem claim_C7_witness :
    (∃ r, create_semantic_view (fun _ => .ok ()) "S" "T1" "T2" [⟨"ENTITY_ID", "NUMBER"⟩]
        [⟨"ENTITY_ID", "NUMBER"⟩] ("f", "d") ["q1"] "Demo" "ac-me" = some r ∧
      r.view_name = semanticViewName "ac-me" ∧ r.example_queries = ["q1"] ∧
      r.join_key = "ENTITY_ID") ∧
    create_semantic_view (fun _ => .ok ()) "S" "T1" "T2" [] [⟨"ENTITY_ID", "NUMBER"⟩]
      ("f", "d") ["q1"] "Demo" "ac-me" = none ∧
    create_cortex_search_service (fun _ => .error "boom") "S" "TBL" "CHUNK_TEXT" = none := by
  have h₁ := (claim_C7_none_on_failure (fun _ => .ok ()) "S" "T1" "T2" [⟨"ENTITY_ID", "NUMBER"⟩]
    [⟨"ENTITY_ID", "NUMBER"⟩] ("f", "d") ["q1"] "Demo" "ac-me").1
  have h₂ := (claim_C7_none_on_failure (fun _ => .ok ()) "S" "T1" "T2" []
    [⟨"ENTITY_ID", "NUMBER"⟩] ("f", "d") ["q1"] "Demo" "ac-me").2.1 (Or.inl rfl)
  have h₃ := ((claim_C7_none_on_failure (fun _ => .ok ()) "S" "T1" "T2" [⟨"ENTITY_ID", "NUMBER"⟩]
    [⟨"ENTITY_ID", "NUMBER"⟩] ("f", "d") ["q1"] "Demo" "ac-me").2.2.2
    (fun _ => .error "boom") "S" "TBL" "CHUNK_TEXT").2 "boom" rfl
  refine ⟨?_, h₂, h₃⟩
  rcases h₁ with h | h
  · exact absurd h (by decide)
  · exact h

/-! ## Claim C10. -/

/-- Inverse of the one-character splitter. -/
def joinChar (c : Char) : List (List Char) → List Char
  | [] => []
  | [g] => g
  | g :: g' :: gs => g ++ c :: joinChar c (g' :: gs)

theorem splitOnChar_ne_nil (c : Char) : ∀ (l : List Char), splitOnChar c l ≠ [] := by
  intro l
  cases l with
  | nil => simp [splitOnChar]
  | cons x xs =>
      unfold splitOnChar
      cases splitOnChar c xs with
      | nil => simp
      | cons grp gs => by_cases h : x = c <;> simp [h]

theorem joinChar_splitOnChar (c : Char) : ∀ (l : List Char), joinChar c (splitOnChar c l) = l := by
  intro l
  induction l with
  | nil => rfl
  | cons x xs ih =>
      unfold splitOnChar
      cases hs : splitOnChar c xs with
      | nil => exact absurd hs (splitOnChar_ne_nil c xs)
      | cons grp gs =>
          rw [hs] at ih
          dsimp only
          by_cases h : x = c
          · subst h
            rw [if_pos rfl]
            show joinChar x ([] :: grp :: gs) = x :: xs
            show [] ++ x :: joinChar x (grp :: gs) = x :: xs
            rw [ih]
            rfl
          · rw [if_neg h]
            cases gs with
            | nil =>
                show x :: grp = x :: xs
                rw [show grp = xs from by simpa [joinChar] using ih]
            | cons g' gs' =>
                show (x :: grp) ++ c :: joinChar c (g' :: gs') = x :: xs
                have : grp ++ c :: joinChar c (g' :: gs') = xs := by simpa [joinChar] using ih
                simpa using this

theorem pySplitDot_pair (s t c : String) (h : pySplitDot s = [t, c]) :
    s = t ++ "." ++ c := by
  unfold pySplitDot at h
  have hsplit : splitOnChar (Char.ofNat 46) s.data = [t.data, c.data] := by
    cases hs : splitOnChar (Char.ofNat 46) s.data with
    | nil => exact absurd hs (splitOnChar_ne_nil _ _)
    | cons g gs =>
        rw [hs] at h
        cases gs with
        | nil => simp at h
        | cons g' gs' =>
            cases gs' with
            | nil =>
                simp only [List.map_cons, List.map_nil, List.cons.injEq, and_true] at h
                obtain ⟨h₁, h₂⟩ := h
                rw [← h₁, ← h₂]
            | cons g'' gs'' => simp at h
  have hjoin := joinChar_splitOnChar (Char.ofNat 46) s.data
  rw [hsplit] at hjoin
  apply String.ext
  rw [String.data_append, String.data_append, List.append_assoc]
  rw [show (".".data : List Char) = [Char.ofNat 46] from by decide]
  rw [← hjoin]
  rfl

theorem not_mem_entityIdsAdded (t : String) (facts : List Fact)
    (h : ∀ f ∈ facts, f.table_column ≠ t ++ ".ENTITY_ID") :
    t ∉ entityIdsAdded facts := by
  intro hmem
  obtain ⟨f, hf, hsome⟩ := List.mem_filterMap.mp hmem
  cases hsp : pySplitDot f.table_column with
  | nil => rw [hsp] at hsome; simp at hsome
  | cons a rest =>
      cases rest with
      | nil => rw [hsp] at hsome; simp at hsome
      | cons b rest₂ =>
          cases rest₂ with
          | nil =>
              rw [hsp] at hsome
              simp only [Option.ite_none_right_eq_some, Option.some.injEq] at hsome
              obtain ⟨hb, ha⟩ := hsome
              have := pySplitDot_pair f.table_column a b hsp
              apply h f hf
              rw [this, ha, hb]
              apply String.ext
              simp [String.data_append]
          | cons d rest₃ => rw [hsp] at hsome; simp at hsome

/-- C10 (confirmed): if the parsed facts list lacks an entry whose
`table_column` is `<table>.ENTITY_ID` for either of the two tables, the
augmentation step appends the default ENTITY_ID fact for that table, and
the assembled facts block of `generate_semantic_elements_with_schema` is
built from the augmented list (so the append happens before SQL assembly);
the fallback `generate_fallback_semantic_elements` always opens its facts
block with the ENTITY_ID fact lines of both tables. -/
theorem claim_C10_entity_id_facts (t1 t2 : String) :
    (∀ facts : List Fact,
      ((∀ f ∈ facts, f.table_column ≠ t1 ++ ".ENTITY_ID") →
        defaultEntityFact t1 ∈ augmentFacts t1 t2 facts) ∧
      ((∀ f ∈ facts, f.table_column ≠ t2 ++ ".ENTITY_ID") →
        defaultEntityFact t2 ∈ augmentFacts t1 t2 facts)) ∧
    (∀ (resp js : String) (ed : ElementsData)
        (jsonLoads : String → Except String ElementsData) (fb : String × String),
      extractBraces resp = some js → jsonLoads js = .ok ed →
      generate_semantic_elements_with_schema (.ok resp) jsonLoads t1 t2 fb =
        (assembleIndexed t1 (augmentFacts t1 t2 ed.facts), assembleIndexed t1 ed.dimensions)) ∧
    (∀ (sch1 sch2 : List ColInfo), ∃ r,
      (generate_fallback_semantic_elements t1 sch1 t2 sch2).1 =
        fallbackEntityFactLine t1 ++ ",\n" ++ fallbackEntityFactLine t2 ++ r) := by
  refine ⟨?_, ?_, ?_⟩
  · intro facts
    constructor
    · intro h
      unfold augmentFacts
      dsimp only
      rw [if_neg (not_mem_entityIdsAdded t1 facts h)]
      simp
    · intro h
      unfold augmentFacts
      dsimp only
      rw [if_neg (not_mem_entityIdsAdded t2 facts h)]
      by_cases h1 : t1 ∈ entityIdsAdded facts <;> simp [h1]
  · intro resp js ed jsonLoads fb hx hl
    unfold generate_semantic_elements_with_schema
    dsimp only
    rw [hx]
    dsimp only
    rw [hl]
  · intro sch1 sch2
    unfold generate_fallback_semantic_elements
    dsimp only
    cases hextras : fallbackNumExtras t1 sch1 t2 sch2 with
    | nil =>
        refine ⟨"", ?_⟩
        apply String.ext
        simp [pyJoin, String.data_append]
    | cons x xs =>
        refine ⟨",\n" ++ pyJoin ",\n" (x :: xs), ?_⟩
        apply String.ext
        simp [pyJoin, String.data_append, List.append_assoc]

/-- A facts list mentioning neither table's ENTITY_ID. -/
def c10Facts : List Fact := [⟨"T1.REVENUE", "REVENUE", ["sales"], "total revenue"⟩]

/-- C10 (witness): the claim applied at concrete tables, facts and schemas. -/
theorem claim_C10_witness :
    (defaultEntityFact "T1" ∈ augmentFacts "T1" "T2" c10Facts ∧
      defaultEntityFact "T2" ∈ augmentFacts "T1" "T2" c10Facts) ∧
    ∃ r, (generate_fallback_semantic_elements "T1" [] "T2" []).1 =
      fallbackEntityFactLine "T1" ++ ",\n" ++ fallbackEntityFactLine "T2" ++ r := by
  have h := claim_C10_entity_id_facts "T1" "T2"
  exact ⟨⟨(h.1 c10Facts).1 (by decide), (h.1 c10Facts).2 (by decide)⟩, h.2.2 [] []⟩

/-! ## Claim C8. -/

theorem genRecord_entity_pres (g : Rng) (keys : List Int) (nc i : Nat) (v : Int)
    (hv : keys[i]? = some v) :
    ∀ (cols : List Column) (j : Nat) (acc rec : Record),
      genRecord g (some keys) nc i cols j acc = .ok rec →
      dictGet acc "ENTITY_ID" = some (.int v) →
      dictGet rec "ENTITY_ID" = some (.int v) := by
  intro cols
  induction cols with
  | nil => intro j acc rec h hacc; cases h; exact hacc
  | cons c rest ih =>
      intro j acc rec h hacc
      unfold genRecord at h
      cases hcv : colValue g (some keys) nc i j c with
      | error e => rw [hcv] at h; cases h
      | ok w =>
          rw [hcv] at h
          by_cases hc : c.name = "ENTITY_ID"
          · have hw : w = .int v := by
              unfold colValue at hcv
              dsimp only at hcv
              rw [if_pos hc] at hcv
              rw [hv] at hcv
              cases hcv
              rfl
            refine ih (j + 1) _ rec h ?_
            rw [hc, hw, dictGet_dictInsert_same]
          · refine ih (j + 1) _ rec h ?_
            rwa [dictGet_dictInsert_other _ _ _ _ hc]

theorem genRecord_entity (g : Rng) (keys : List Int) (nc i : Nat) :
    ∀ (cols : List Column) (j : Nat) (acc rec : Record),
      genRecord g (some keys) nc i cols j acc = .ok rec →
      "ENTITY_ID" ∈ cols.map Column.name →
      ∃ v, keys[i]? = some v ∧ dictGet rec "ENTITY_ID" = some (.int v) := by
  intro cols
  induction cols with
  | nil => intro j acc rec _ hm; simp at hm
  | cons c rest ih =>
      intro j acc rec h hm
      unfold genRecord at h
      cases hcv : colValue g (some keys) nc i j c with
      | error e => rw [hcv] at h; cases h
      | ok w =>
          rw [hcv] at h
          by_cases hc : c.name = "ENTITY_ID"
          · have hv : ∃ v, keys[i]? = some v ∧ w = .int v := by
              unfold colValue at hcv
              dsimp only at hcv
              rw [if_pos hc] at hcv
              cases hk : keys[i]? with
              | none => rw [hk] at hcv; cases hcv
              | some v =>
                  rw [hk] at hcv
                  cases hcv
                  exact ⟨v, rfl, rfl⟩
            obtain ⟨v, hk, hw⟩ := hv
            refine ⟨v, hk, ?_⟩
            refine genRecord_entity_pres g keys nc i v hk rest (j + 1) _ rec h ?_
            rw [hc, hw, dictGet_dictInsert_same]
          · have hm' : "ENTITY_ID" ∈ rest.map Column.name := by
              rcases List.mem_map.mp hm with ⟨c', hc', hn⟩
              rcases List.mem_cons.mp hc' with rfl | hc''
              · exact absurd hn hc
              · exact List.mem_map.mpr ⟨c', hc'', hn⟩
            exact ih (j + 1) _ rec h hm'

/-- The ENTITY_ID column of a table generated against join keys of length
`num_records` is exactly the key list (as Python ints), hence duplicate-free
when the keys are. -/
theorem entity_column_eq_keys (g : Rng) (schema : SchemaData) (n : Nat) (keys : List Int)
    (hlen : keys.length = n) (hmem : "ENTITY_ID" ∈ schema.columns.map Column.name)
    (data : List Record) (h : generate_data_from_schema g schema n (some keys) = .ok data) :
    data.map (fun r => dictGet r "ENTITY_ID") = keys.map (fun v => some (.int v)) := by
  obtain ⟨hdlen, hget⟩ := genRows_ok g (some keys) schema.columns.length schema.columns n 0 data h
  apply List.ext_get (by simp [hdlen, hlen])
  intro t h₁ h₂
  have ht : t < data.length := by simpa using h₁
  obtain ⟨rec, hrec, hgetr⟩ := hget t ht
  rw [Nat.zero_add] at hrec
  obtain ⟨v, hk, hv⟩ := genRecord_entity g keys schema.columns.length t schema.columns 0 [] rec
    hrec hmem
  have htk : t < keys.length := by simpa using h₂
  have hkv : keys.get ⟨t, htk⟩ = v := by
    have h₅ : keys[t]? = some (keys.get ⟨t, htk⟩) := by
      rw [List.getElem?_eq_getElem htk]
      rfl
    rw [h₅] at hk
    exact Option.some.inj hk
  simp only [List.get_map]
  rw [hgetr, hv, hkv]

/-- Elements of a duplicate-free list that lie in its own prefix form
exactly that prefix. -/
theorem filter_append_mem_left (a b : List Int) (hd : List.Disjoint a b) :
    (a ++ b).filter (fun x => decide (x ∈ a)) = a := by
  rw [List.filter_append,
    List.filter_eq_self.mpr (fun x hx => by simpa using hx),
    List.filter_eq_nil.mpr (fun x hx => by simpa using fun hc => hd hc hx),
    List.append_nil]

theorem filter_mem_take_of_nodup (l : List Int) (hnd : l.Nodup) (k : Nat) :
    l.filter (fun x => decide (x ∈ l.take k)) = l.take k := by
  have hdisj : List.Disjoint (l.take k) (l.drop k) := by
    have hnd' := hnd
    rw [← List.take_append_drop k l] at hnd'
    exact (List.nodup_append.mp hnd').2.2
  have h := filter_append_mem_left (l.take k) (l.drop k) hdisj
  rw [List.take_append_drop] at h
  exact h

/-- C8 (confirmed): modelling the two `random.shuffle` calls as arbitrary
permutations and writing `overlap` for the value of
`int(num_records * 0.7)` (a float computation; the proof needs only
`overlap ≤ num_records`, which holds for it), the two ENTITY_ID pools built
by `create_tables_in_snowflake` each hold exactly `num_records` pairwise
distinct values from `1 .. 2 * num_records` and share exactly `overlap`
values; and any structured table generated against either pool carries a
duplicate-free ENTITY_ID column. -/
theorem claim_C8_entity_pools (n : Nat) (hn : 1 ≤ n) (base t2 : List Int) (overlap : Nat)
    (hbase : base.Perm (basePool n)) (hov : overlap ≤ n)
    (ht2 : t2.Perm (table2IdsPre base n overlap)) :
    (table1Ids base n).length = n ∧ (table1Ids base n).Nodup ∧
    (∀ x ∈ table1Ids base n, 1 ≤ x ∧ x ≤ 2 * n) ∧
    t2.length = n ∧ t2.Nodup ∧ (∀ x ∈ t2, 1 ≤ x ∧ x ≤ 2 * n) ∧
    ((table1Ids base n).filter (fun x => decide (x ∈ t2))).length = overlap ∧
    (∀ (g : Rng) (schema : SchemaData) (data : List Record),
      "ENTITY_ID" ∈ schema.columns.map Column.name →
      generate_data_from_schema g schema n (some (table1Ids base n)) = .ok data →
      (data.map (fun r => dictGet r "ENTITY_ID")).Nodup) ∧
    (∀ (g : Rng) (schema : SchemaData) (data : List Record),
      "ENTITY_ID" ∈ schema.columns.map Column.name →
      generate_data_from_schema g schema n (some t2) = .ok data →
      (data.map (fun r => dictGet r "ENTITY_ID")).Nodup) := by
  have hbl : base.length = 2 * n := by
    rw [hbase.length_eq, basePool, List.length_map, List.length_range]
  have hbnd : base.Nodup := by
    refine hbase.nodup_iff.mpr ?_
    refine List.Nodup.map ?_ (List.nodup_range (2 * n))
    intro a b hab
    dsimp only at hab
    omega
  have hbmem : ∀ x ∈ base, 1 ≤ x ∧ x ≤ 2 * n := by
    intro x hx
    have := hbase.mem_iff.mp hx
    obtain ⟨k, hk, rfl⟩ := List.mem_map.mp this
    have := List.mem_range.mp hk
    omega
  have ht1len : (table1Ids base n).length = n := by
    rw [table1Ids, List.length_take, hbl]
    omega
  have ht1nd : (table1Ids base n).Nodup := hbnd.sublist (List.take_sublist n base)
  have ht1mem : ∀ x ∈ table1Ids base n, 1 ≤ x ∧ x ≤ 2 * n :=
    fun x hx => hbmem x (List.mem_of_mem_take hx)
  have hprelen : (table2IdsPre base n overlap).length = n := by
    rw [table2IdsPre, List.length_append, List.length_take, List.length_take, ht1len,
      List.length_drop, hbl]
    omega
  have hdisj : List.Disjoint (base.take n) (base.drop n) := by
    have := hbnd
    rw [← List.take_append_drop n base] at this
    exact (List.nodup_append.mp this).2.2
  have hprend : (table2IdsPre base n overlap).Nodup := by
    rw [table2IdsPre, List.nodup_append]
    refine ⟨(ht1nd.sublist (List.take_sublist overlap _)),
      (hbnd.sublist (List.drop_sublist n base)).sublist (List.take_sublist _ _), ?_⟩
    intro x hx₁ hx₂
    exact hdisj (List.mem_of_mem_take (l := base.take n) hx₁) (List.mem_of_mem_take hx₂)
  have ht2len : t2.length = n := by rw [ht2.length_eq, hprelen]
  have ht2nd : t2.Nodup := ht2.nodup_iff.mpr hprend
  have ht2mem : ∀ x ∈ t2, 1 ≤ x ∧ x ≤ 2 * n := by
    intro x hx
    have hx' := ht2.mem_iff.mp hx
    rcases List.mem_append.mp hx' with hx₀ | hx₀
    · exact ht1mem x (List.mem_of_mem_take hx₀)
    · exact hbmem x (List.mem_of_mem_drop (List.mem_of_mem_take hx₀))
  have hshared : ((table1Ids base n).filter (fun x => decide (x ∈ t2))).length = overlap := by
    have hsame : (table1Ids base n).filter (fun x => decide (x ∈ t2)) =
        (table1Ids base n).filter (fun x => decide (x ∈ (table1Ids base n).take overlap)) := by
      apply List.filter_congr
      intro x hx
      simp only [decide_eq_decide]
      constructor
      · intro hxt2
        rcases List.mem_append.mp (ht2.mem_iff.mp hxt2) with hx₀ | hx₀
        · exact hx₀
        · exact absurd (List.mem_of_mem_take hx₀)
            (fun hc => hdisj hx hc)
      · intro hxk
        exact ht2.mem_iff.mpr (List.mem_append.mpr (Or.inl hxk))
    rw [hsame, filter_mem_take_of_nodup _ ht1nd overlap, List.length_take, ht1len]
    omega
  have hentity : ∀ (keys : List Int), keys.length = n → keys.Nodup →
      ∀ (g : Rng) (schema : SchemaData) (data : List Record),
        "ENTITY_ID" ∈ schema.columns.map Column.name →
        generate_data_from_schema g schema n (some keys) = .ok data →
        (data.map (fun r => dictGet r "ENTITY_ID")).Nodup := by
    intro keys hklen hknd g schema data hmem h
    rw [entity_column_eq_keys g schema n keys hklen hmem data h]
    refine hknd.map ?_
    intro a b hab
    simpa using hab
  exact ⟨ht1len, ht1nd, ht1mem, ht2len, ht2nd, ht2mem, hshared,
    hentity _ ht1len ht1nd, hentity _ ht2len ht2nd⟩

/-- C8 (witness): the claim applied to concrete pools for two records
(`int(2 * 0.7) = 1`): base shuffle `[3, 1, 4, 2]`, second-pool shuffle
`[4, 3]` of the pre-shuffle pool `[3, 4]`. -/
theorem claim_C8_witness :
    (table1Ids [3, 1, 4, 2] 2).length = 2 ∧ (table1Ids [3, 1, 4, 2] 2).Nodup ∧
    (∀ x ∈ table1Ids [3, 1, 4, 2] 2, 1 ≤ x ∧ x ≤ 2 * 2) ∧
    ([4, 3] : List Int).length = 2 ∧ ([4, 3] : List Int).Nodup ∧
    (∀ x ∈ ([4, 3] : List Int), 1 ≤ x ∧ x ≤ 2 * 2) ∧
    ((table1Ids [3, 1, 4, 2] 2).filter (fun x => decide (x ∈ ([4, 3] : List Int)))).length = 1 ∧
    (∀ (g : Rng) (schema : SchemaData) (data : List Record),
      "ENTITY_ID" ∈ schema.columns.map Column.name →
      generate_data_from_schema g schema 2 (some (table1Ids [3, 1, 4, 2] 2)) = .ok data →
      (data.map (fun r => dictGet r "ENTITY_ID")).Nodup) ∧
    (∀ (g : Rng) (schema : SchemaData) (data : List Record),
      "ENTITY_ID" ∈ schema.columns.map Column.name →
      generate_data_from_schema g schema 2 (some ([4, 3] : List Int)) = .ok data →
      (data.map (fun r => dictGet r "ENTITY_ID")).Nodup) :=
  claim_C8_entity_pools 2 (by decide) [3, 1, 4, 2] [4, 3] 1 (by decide) (by decide) (by decide)

/-! ## Claim C9. -/

theorem natDigitsAux_foldl :
    ∀ (fuel n a : Nat), n ≤ fuel →
      (natDigitsAux fuel n).foldl (fun a c => a * 10 + (c.toNat - 48)) a =
        a * 10 ^ (natDigitsAux fuel n).length + n := by
  intro fuel
  induction fuel with
  | zero => intro n a hn; interval_cases n; simp [natDigitsAux]
  | succ f ih =>
      intro n a hn
      cases n with
      | zero => simp [natDigitsAux]
      | succ m =>
          show ((natDigitsAux f ((m + 1) / 10) ++ [Char.ofNat (48 + (m + 1) % 10)]).foldl
              (fun a c => a * 10 + (c.toNat - 48)) a) =
            a * 10 ^ (natDigitsAux f ((m + 1) / 10) ++
              [Char.ofNat (48 + (m + 1) % 10)]).length + (m + 1)
          rw [List.foldl_append]
          have hdivf : (m + 1) / 10 ≤ f := by
            have := Nat.div_lt_self (Nat.succ_pos m) (show 1 < 10 by omega)
            omega
          rw [ih ((m + 1) / 10) a hdivf]
          have hmod : (m + 1) % 10 < 10 := Nat.mod_lt _ (by omega)
          have hc : (Char.ofNat (48 + (m + 1) % 10)).toNat = 48 + (m + 1) % 10 := by
            set r := (m + 1) % 10 with hr
            interval_cases r <;> decide
          show (a * 10 ^ (natDigitsAux f ((m + 1) / 10)).length + (m + 1) / 10) * 10 +
              ((Char.ofNat (48 + (m + 1) % 10)).toNat - 48) = _
          rw [hc]
          have hlen : (natDigitsAux f ((m + 1) / 10) ++
              [Char.ofNat (48 + (m + 1) % 10)]).length =
              (natDigitsAux f ((m + 1) / 10)).length + 1 := by
            rw [List.length_append]
            rfl
          rw [hlen]
          set L := (natDigitsAux f ((m + 1) / 10)).length
          have hsplit : (m + 1) / 10 * 10 + (m + 1) % 10 = m + 1 := by
            have := Nat.div_add_mod (m + 1) 10
            omega
          calc (a * 10 ^ L + (m + 1) / 10) * 10 + (48 + (m + 1) % 10 - 48)
              = a * (10 ^ L * 10) + ((m + 1) / 10 * 10 + (m + 1) % 10) := by ring_nf; omega
            _ = a * 10 ^ (L + 1) + (m + 1) := by rw [← pow_succ, hsplit]

theorem digitsToNat_zpad (w n : Nat) : digitsToNat (zpad w n) = n := by
  unfold digitsToNat zpad natToDec
  by_cases h0 : n = 0
  · subst h0
    rw [if_pos rfl]
    show (List.replicate (w - 1) (Char.ofNat 48) ++ [Char.ofNat 48]).foldl
      (fun a c => a * 10 + (c.toNat - 48)) 0 = 0
    rw [List.foldl_append]
    have hz : ∀ k, (List.replicate k (Char.ofNat 48)).foldl
        (fun a c => a * 10 + (c.toNat - 48)) 0 = 0 := by
      intro k
      induction k with
      | zero => rfl
      | succ k ih => simpa [List.replicate_succ, show (Char.ofNat 48).toNat = 48 from by decide]
          using ih
    rw [hz]
    decide
  · rw [if_neg h0]
    show (List.replicate (w - (natDigitsAux n n).length) (Char.ofNat 48) ++
        natDigitsAux n n).foldl (fun a c => a * 10 + (c.toNat - 48)) 0 = n
    rw [List.foldl_append]
    have hz : ∀ k, (List.replicate k (Char.ofNat 48)).foldl
        (fun a c => a * 10 + (c.toNat - 48)) 0 = 0 := by
      intro k
      induction k with
      | zero => rfl
      | succ k ih => simpa [List.replicate_succ, show (Char.ofNat 48).toNat = 48 from by decide]
          using ih
    rw [hz, natDigitsAux_foldl n n 0 le_rfl]
    ring

theorem zpad_inj (w a b : Nat) (h : zpad w a = zpad w b) : a = b := by
  have := congrArg digitsToNat h
  rwa [digitsToNat_zpad, digitsToNat_zpad] at this

theorem natDigitsAux_length_le :
    ∀ (fuel n e : Nat), n ≤ fuel → n < 10 ^ e → (natDigitsAux fuel n).length ≤ e := by
  intro fuel
  induction fuel with
  | zero => intro n e hn _; interval_cases n; simp [natDigitsAux]
  | succ f ih =>
      intro n e hn hlt
      cases n with
      | zero => simp [natDigitsAux]
      | succ m =>
          cases e with
          | zero => rw [pow_zero] at hlt; omega
          | succ e₀ =>
              show (natDigitsAux f ((m + 1) / 10) ++ [Char.ofNat (48 + (m + 1) % 10)]).length ≤
                e₀ + 1
              rw [List.length_append]
              have hdiv10 : (m + 1) / 10 < 10 ^ e₀ := by
                rw [Nat.div_lt_iff_lt_mul (by omega)]
                calc m + 1 < 10 ^ (e₀ + 1) := hlt
                  _ = 10 ^ e₀ * 10 := by rw [pow_succ]
              have hdivf : (m + 1) / 10 ≤ f := by
                have := Nat.div_lt_self (Nat.succ_pos m) (show 1 < 10 by omega)
                omega
              have := ih ((m + 1) / 10) e₀ hdivf hdiv10
              simp only [List.length_singleton]
              omega

theorem natToDec_length_le (n e : Nat) (he : 0 < e) (h : n < 10 ^ e) :
    (natToDec n).length ≤ e := by
  unfold natToDec
  by_cases h0 : n = 0
  · rw [if_pos h0]
    exact he
  · rw [if_neg h0]
    show (natDigitsAux n n).length ≤ e
    exact natDigitsAux_length_le n n e le_rfl h

theorem zpad_length (w n : Nat) (h : (natToDec n).length ≤ w) : (zpad w n).length = w := by
  show (zpad w n).data.length = w
  unfold zpad
  rw [String.data_append]
  show (List.replicate (w - (natToDec n).length) (Char.ofNat 48) ++ (natToDec n).data).length = w
  rw [List.length_append, List.length_replicate]
  have : (natToDec n).data.length = (natToDec n).length := rfl
  omega

theorem string_append_cancel_left (p a b : String) (h : p ++ a = p ++ b) : a = b := by
  apply String.ext
  have := congrArg String.data h
  rw [String.data_append, String.data_append] at this
  exact List.append_cancel_left this

theorem dropWhile_append_singleton (p : Char → Bool) (c : Char) (hc : p c = false) :
    ∀ (l : List Char), (l ++ [c]).dropWhile p = l.dropWhile p ++ [c] := by
  intro l
  induction l with
  | nil => simp [List.dropWhile, hc]
  | cons x xs ih =>
      by_cases hx : p x
      · show ((x :: (xs ++ [c])).dropWhile p) = _
        rw [List.dropWhile_cons_of_pos hx, ih, List.dropWhile_cons_of_pos hx]
      · show ((x :: (xs ++ [c])).dropWhile p) = _
        rw [List.dropWhile_cons_of_neg (by simpa using hx),
          List.dropWhile_cons_of_neg (by simpa using hx)]
        rfl

theorem pyStrip_dot (ct : String) (l : List Char) (h : ct.data = l ++ [Char.ofNat 46]) :
    (pyStrip ct).data = l.dropWhile isPySpace ++ [Char.ofNat 46] := by
  show ((ct.data.dropWhile isPySpace).reverse.dropWhile isPySpace).reverse = _
  rw [h, dropWhile_append_singleton isPySpace _ (by decide) l]
  rw [List.reverse_append]
  simp only [List.reverse_singleton, List.singleton_append]
  rw [List.dropWhile_cons_of_neg (by decide)]
  rw [List.reverse_cons, List.reverse_reverse]

theorem pyStrip_dot_ne (ct : String) (l : List Char) (h : ct.data = l ++ [Char.ofNat 46]) :
    pyStrip ct ≠ "" := by
  intro hc
  have := pyStrip_dot ct l h
  rw [hc] at this
  simp at this

theorem pyStrip_dot_endsWith (ct : String) (l : List Char)
    (h : ct.data = l ++ [Char.ofNat 46]) : pyEndsWith (pyStrip ct) "." = true := by
  show (".".data.isSuffixOf (pyStrip ct).data) = true
  rw [pyStrip_dot ct l h, show (".".data : List Char) = [Char.ofNat 46] from by decide,
    List.isSuffixOf_iff_suffix]
  exact ⟨_, rfl⟩

/-- The fixed chunk text of a group is empty or ends with a period. -/
theorem chunkFixedText_cases (grp : List String) :
    chunkFixedText grp = "" ∨ ∃ l, (chunkFixedText grp).data = l ++ [Char.ofNat 46] := by
  unfold chunkFixedText
  dsimp only
  by_cases hfix : pyJoin ". " grp ≠ "" ∧ ¬ pyEndsWith (pyJoin ". " grp) "." = true
  · rw [if_pos hfix]
    refine Or.inr ⟨(pyJoin ". " grp).data, ?_⟩
    rw [String.data_append]
  · rw [if_neg hfix]
    rcases Decidable.not_and_iff_or_not.mp hfix with h | h
    · exact Or.inl (Decidable.not_not.mp h)
    · have hsuf : (".".data : List Char).isSuffixOf (pyJoin ". " grp).data = true :=
        Decidable.not_not.mp h
      rw [show (".".data : List Char) = [Char.ofNat 46] from by decide,
        List.isSuffixOf_iff_suffix] at hsuf
      obtain ⟨p, hp⟩ := hsuf
      exact Or.inr ⟨p, hp.symm⟩

/-- What claim C9 asserts of a single chunk record with document number `d`
and chunk counter `cid`: the chunk text is the stripped form of a
period-terminated string whose pre-strip length is recorded in
CHUNK_LENGTH, and the CHUNK_ID and DOCUMENT_ID fields carry the zero-padded
counter and document number. -/
def ChunkRec (d cid : Nat) (r : Record) : Prop :=
  (∃ ct : String, (∃ l, ct.data = l ++ [Char.ofNat 46]) ∧
    dictGet r "CHUNK_TEXT" = some (.str (pyStrip ct)) ∧
    dictGet r "CHUNK_LENGTH" = some (.int (ct.length : Int))) ∧
  dictGet r "CHUNK_ID" = some (.str ("CHUNK_" ++ zpad 8 cid)) ∧
  dictGet r "DOCUMENT_ID" = some (.str ("DOC_" ++ zpad 6 d))

theorem chunkRecordOf_spec (g : Rng) (tbl comp : String) (i p cid : Nat) (grp : List String)
    (r : Record) (h : chunkRecordOf g tbl comp i p cid grp = some r) :
    ChunkRec (i + 1) cid r := by
  unfold chunkRecordOf at h
  dsimp only at h
  by_cases hguard : pyStrip (chunkFixedText grp) = ""
  · rw [if_pos hguard] at h
    cases h
  · rw [if_neg hguard] at h
    injection h with h
    subst h
    have hdot : ∃ l, (chunkFixedText grp).data = l ++ [Char.ofNat 46] := by
      rcases chunkFixedText_cases grp with hc | hc
      · exact absurd (by rw [hc]; rfl) hguard
      · exact hc
    exact ⟨⟨chunkFixedText grp, hdot, rfl, rfl⟩, rfl, rfl⟩

theorem chunkLoop_spec (g : Rng) (tbl comp : String) (i : Nat) :
    ∀ (grps : List (List String)) (p cid : Nat),
      (chunkLoop g tbl comp i grps p cid).2 =
        cid + (chunkLoop g tbl comp i grps p cid).1.length ∧
      ∀ (t : Nat) (r : Record), (chunkLoop g tbl comp i grps p cid).1[t]? = some r →
        ChunkRec (i + 1) (cid + t) r := by
  intro grps
  induction grps with
  | nil =>
      intro p cid
      exact ⟨rfl, fun t r ht => by simp [chunkLoop] at ht⟩
  | cons grp rest ih =>
      intro p cid
      unfold chunkLoop
      cases hro : chunkRecordOf g tbl comp i p cid grp with
      | none => exact ih (p + 1) cid
      | some r₀ =>
          dsimp only
          cases he : chunkLoop g tbl comp i rest (p + 1) (cid + 1) with
          | mk rs cid₂ =>
              obtain ⟨ih1, ih2⟩ := ih (p + 1) (cid + 1)
              rw [he] at ih1 ih2
              dsimp only at ih1 ih2 ⊢
              constructor
              · rw [ih1, List.length_cons]
                omega
              · intro t r htr
                cases t with
                | zero =>
                    have hr : r₀ = r := by simpa using htr
                    subst hr
                    have := chunkRecordOf_spec g tbl comp i p cid grp r₀ hro
                    simpa using this
                | succ t₀ =>
                    have htr₀ : rs[t₀]? = some r := by simpa using htr
                    have := ih2 t₀ r htr₀
                    rw [show cid + (t₀ + 1) = cid + 1 + t₀ from by omega]
                    exact this

theorem chunkRows_spec (g : Rng) (samples : List String) (tbl comp : String) :
    ∀ (m i cid : Nat) (recs : List Record) (cidF : Nat),
      chunkRows g samples tbl comp i cid m = .ok (recs, cidF) →
      cidF = cid + recs.length ∧
      ∀ (t : Nat) (ht : t < recs.length),
        ∃ d, i + 1 ≤ d ∧ d ≤ i + m ∧ ChunkRec d (cid + t) (recs.get ⟨t, ht⟩) := by
  intro m
  induction m with
  | zero =>
      intro i cid recs cidF h
      unfold chunkRows at h
      injection h with h1
      injection h1 with ha hb
      subst ha
      subst hb
      exact ⟨by simp, fun t ht => absurd ht (by simp)⟩
  | succ m₀ ih =>
      intro i cid recs cidF h
      unfold chunkRows at h
      cases hch : pyChoice g (1000003 * i) samples with
      | error e => rw [hch] at h; cases h
      | ok fullText =>
          rw [hch] at h
          dsimp only at h
          cases he : chunkLoop g tbl comp i
              (chunkGroups (pyRandint g (1000003 * i + 1) 1 2) (pySplitSeq fullText ". ")) 0 cid with
          | mk rs cid₂ =>
              rw [he] at h
              dsimp only at h
              cases hrec : chunkRows g samples tbl comp (i + 1) cid₂ m₀ with
              | error e => rw [hrec] at h; cases h
              | ok pr =>
                  obtain ⟨rest, cidR⟩ := pr
                  rw [hrec] at h
                  dsimp only at h
                  injection h with h1
                  injection h1 with ha hb
                  subst ha
                  subst hb
                  obtain ⟨hl1, hl2⟩ := chunkLoop_spec g tbl comp i
                    (chunkGroups (pyRandint g (1000003 * i + 1) 1 2) (pySplitSeq fullText ". "))
                    0 cid
                  rw [he] at hl1 hl2
                  dsimp only at hl1 hl2
                  obtain ⟨ihr1, ihr2⟩ := ih (i + 1) cid₂ rest cidR hrec
                  refine ⟨by rw [ihr1, hl1, List.length_append]; omega, ?_⟩
                  intro t ht
                  by_cases hlt : t < rs.length
                  · have hget : (rs ++ rest).get ⟨t, ht⟩ = rs.get ⟨t, hlt⟩ := by
                      rw [List.get_eq_getElem, List.get_eq_getElem]
                      exact List.getElem_append_left hlt
                    rw [hget]
                    refine ⟨i + 1, le_rfl, by omega, hl2 t _ ?_⟩
                    rw [List.getElem?_eq_getElem hlt]
                    rfl
                  · have hge : rs.length ≤ t := Nat.le_of_not_lt hlt
                    have ht' : t - rs.length < rest.length := by
                      have := ht
                      rw [List.length_append] at this
                      omega
                    have hget : (rs ++ rest).get ⟨t, ht⟩ = rest.get ⟨t - rs.length, ht'⟩ := by
                      rw [List.get_eq_getElem, List.get_eq_getElem]
                      exact List.getElem_append_right hge
                    rw [hget]
                    obtain ⟨d, hd1, hd2, hdrec⟩ := ihr2 (t - rs.length) ht'
                    refine ⟨d, by omega, by omega, ?_⟩
                    rw [show cid + t = cid₂ + (t - rs.length) from by rw [hl1]; omega]
                    exact hdrec

/-- What claim C9 asserts of the `j`-th returned record: a nonempty
period-terminated CHUNK_TEXT, a CHUNK_ID holding the zero-padded (width 8)
chunk counter `j + 1` (strictly increasing in `j`), a DOCUMENT_ID holding a
zero-padded (width 6) document number between 1 and `num_records`, and a
CHUNK_LENGTH equal to the length of the chunk text before whitespace
stripping (whose stripped form is CHUNK_TEXT). -/
def C9RecordSpec (n j : Nat) (r : Record) : Prop :=
  (∃ t : String, dictGet r "CHUNK_TEXT" = some (.str t) ∧ t ≠ "" ∧
    pyEndsWith t "." = true) ∧
  dictGet r "CHUNK_ID" = some (.str ("CHUNK_" ++ zpad 8 (j + 1))) ∧
  (∃ d, 1 ≤ d ∧ d ≤ n ∧ dictGet r "DOCUMENT_ID" = some (.str ("DOC_" ++ zpad 6 d))) ∧
  (∃ ct : String, dictGet r "CHUNK_LENGTH" = some (.int (ct.length : Int)) ∧
    dictGet r "CHUNK_TEXT" = some (.str (pyStrip ct)))

/-- C9 (amended): every record returned by
`generate_chunked_data_from_samples` has a nonempty CHUNK_TEXT ending with a
period; the `j`-th record's CHUNK_ID is CHUNK_ followed by the width-8
zero-padded decimal of `j + 1` (exactly 8 digits whenever fewer than `10^8`
chunks are produced), so the underlying counter is strictly increasing and
all CHUNK_IDs are pairwise distinct; its DOCUMENT_ID is DOC_ followed by
the width-6 zero-padded decimal of a document number in `1 ..= num_records`
(exactly 6 digits whenever `num_records < 10^6`); and its CHUNK_LENGTH is
the length of the chunk text as it was before `strip()`, which equals the
length of CHUNK_TEXT exactly when that text carries no surrounding
whitespace — the unamended claim equates CHUNK_LENGTH with the length of
the stripped CHUNK_TEXT itself, which the counterexample refutes. -/
theorem claim_C9_chunked_records (g : Rng) (samples : List String) (n : Nat)
    (tbl comp : String) (data : List Record) (hs : samples ≠ [])
    (hne : ∀ s ∈ samples, s ≠ "")
    (h : generate_chunked_data_from_samples g samples n tbl comp = .ok data) :
    ∀ (j : Nat) (hj : j < data.length),
      C9RecordSpec n j (data.get ⟨j, hj⟩) ∧
      (j + 1 < 10 ^ 8 → (zpad 8 (j + 1)).length = 8) ∧
      (∀ d, 1 ≤ d → d ≤ n → n < 10 ^ 6 → (zpad 6 d).length = 6) ∧
      (∀ (j' : Nat) (hj' : j' < data.length), j ≠ j' →
        dictGet (data.get ⟨j, hj⟩) "CHUNK_ID" ≠ dictGet (data.get ⟨j', hj'⟩) "CHUNK_ID") := by
  have hrows : ∃ cidF, chunkRows g samples tbl comp 0 1 n = .ok (data, cidF) := by
    unfold generate_chunked_data_from_samples at h
    cases hr : chunkRows g samples tbl comp 0 1 n with
    | error e => rw [hr] at h; cases h
    | ok pr =>
        obtain ⟨recs, cidF⟩ := pr
        rw [hr] at h
        dsimp only at h
        injection h with h1
        subst h1
        exact ⟨cidF, rfl⟩
  obtain ⟨cidF, hrows⟩ := hrows
  obtain ⟨_, hspec⟩ := chunkRows_spec g samples tbl comp n 0 1 data cidF hrows
  have hrec : ∀ (j : Nat) (hj : j < data.length),
      ∃ d, 1 ≤ d ∧ d ≤ n ∧ ChunkRec d (j + 1) (data.get ⟨j, hj⟩) := by
    intro j hj
    obtain ⟨d, hd1, hd2, hdc⟩ := hspec j hj
    refine ⟨d, by omega, by omega, ?_⟩
    rw [show j + 1 = 1 + j from by omega]
    exact hdc
  intro j hj
  obtain ⟨d, hd1, hd2, ⟨ct, ⟨l, hct⟩, htext, hlen⟩, hcid, hdoc⟩ := hrec j hj
  refine ⟨⟨⟨pyStrip ct, htext, pyStrip_dot_ne ct l hct, pyStrip_dot_endsWith ct l hct⟩,
    hcid, ⟨d, hd1, hd2, hdoc⟩, ⟨ct, hlen, htext⟩⟩, ?_, ?_, ?_⟩
  · intro hjlt
    exact zpad_length 8 (j + 1) (natToDec_length_le (j + 1) 8 (by omega) hjlt)
  · intro d' hd'1 hd'2 hn
    exact zpad_length 6 d' (natToDec_length_le d' 6 (by omega) (by omega))
  · intro j' hj' hne'
    obtain ⟨d', _, _, _, hcid', _⟩ := hrec j' hj'
    rw [hcid, hcid']
    intro hc
    have h1 := Option.some.inj hc
    have h2 := Val.str.inj h1
    have := zpad_inj 8 (j + 1) (j' + 1) (string_append_cancel_left "CHUNK_" _ _ h2)
    omega

/-- What the generations at the claimed counterexample input actually
produce: a single record whose CHUNK_TEXT is the stripped text but whose
CHUNK_LENGTH is the pre-strip length. -/
theorem claim_C9_counterexample :
    (generate_chunked_data_from_samples gZero [" a"] 1 "T_CHUNKS" "co").map
        (fun d => d.map (fun r => (dictGet r "CHUNK_TEXT", dictGet r "CHUNK_LENGTH"))) =
      .ok [(some (.str "a."), some (.int 3))] ∧
    ("a." : String).length = 2 :=
  ⟨by rfl, by rfl⟩

/-- The records generated for the witness sample. -/
def c9wData : List Record :=
  match generate_chunked_data_from_samples gZero ["Hi there. Bye"] 1 "T_CHUNKS" "co" with
  | .ok d => d
  | .error _ => []

/-- C9 (witness): the amended claim applied at a concrete sample list. -/
theorem claim_C9_witness :
    C9RecordSpec 1 0 (c9wData.get ⟨0, by decide⟩) ∧
    dictGet (c9wData.get ⟨0, by decide⟩) "CHUNK_ID" ≠
      dictGet (c9wData.get ⟨1, by decide⟩) "CHUNK_ID" := by
  have h := claim_C9_chunked_records gZero ["Hi there. Bye"] 1 "T_CHUNKS" "co" c9wData
    (by decide) (by decide) (by rfl)
  exact ⟨(h 0 (by decide)).1, (h 0 (by decide)).2.2.2 1 (by decide) (by decide)⟩

end DemoGen
